import Mathlib

/-! The docker-operator service: container execution pipeline, response framing and
HTTP mapping.

A shallow embedding of `src/docker/service.go` and `src/v1/docker/exec.go`.

* Go strings are modelled as lists of Unicode code points (`GoString`), that is,
  as valid UTF-8 text.  The separators the program splits on (`"\n"`, `":"`,
  `"\n\n"`) are ASCII, so splitting code points and splitting bytes agree.
* A Go `map[string]string` is an association list with pairwise distinct keys;
  assignment replaces the value of a key that is present.
* Go `error` values are a small inductive type that keeps what the program can
  observe: the message, the wrapped cause, and the identity of the two
  package-level values `NotFoundError` and `ContainerRunError`.
* A run-time panic of the Go program is the `none` of an `Option`.
* Calls of `zap` loggers inside the service are side effects on the process log
  and are left out; the audit record written by the HTTP handlers is kept.
-/

namespace DockerOperator

/-! ## Go strings and the `strings` functions the program calls -/

/-- Text of a Go string, one element per code point. -/
abbrev GoString := List Char

/-- Go `strings.HasPrefix`. -/
def HasPrefix (s pre : GoString) : Bool := pre.isPrefixOf s

/-- Go `unicode.ToLower` as far as ASCII results are concerned: the capital ASCII
letters, and the two other runes that Go lowers to an ASCII letter (U+0130 to `i`,
U+212A to `k`).  Every other rune is lowered by Go to a rune outside ASCII and is
left as it is here. -/
def unicodeToLower (r : Char) : Char :=
  if 65 ≤ r.toNat ∧ r.toNat ≤ 90 then Char.ofNat (r.toNat + 32)
  else if r.toNat = 0x130 then 'i'
  else if r.toNat = 0x212A then 'k'
  else r

/-- Go `strings.ToLower`. -/
def ToLower (s : GoString) : GoString := s.map unicodeToLower

/-- Go `unicode.IsSpace`: the code points with the White_Space property. -/
def IsSpace (r : Char) : Bool :=
  (9 ≤ r.toNat && r.toNat ≤ 13) || r.toNat == 0x20 || r.toNat == 0x85 || r.toNat == 0xA0 ||
  r.toNat == 0x1680 || (0x2000 ≤ r.toNat && r.toNat ≤ 0x200A) || r.toNat == 0x2028 ||
  r.toNat == 0x2029 || r.toNat == 0x202F || r.toNat == 0x205F || r.toNat == 0x3000

/-- Go `strings.TrimSpace`: drop leading and trailing white space. -/
def TrimSpace (s : GoString) : GoString :=
  ((s.dropWhile IsSpace).reverse.dropWhile IsSpace).reverse

/-- Go `strings.Index`: position of the first occurrence of `substr` in `s`;
`none` stands for `-1`. -/
def Index : GoString → GoString → Option Nat
  | [], substr => if substr.isPrefixOf [] then some 0 else none
  | c :: cs, substr =>
    if substr.isPrefixOf (c :: cs) then some 0 else (Index cs substr).map (· + 1)

/-- The loop of Go `strings.genSplit` for a non-empty separator: at most `k`
further cuts, each at the first occurrence of `sep` in what is left. -/
def genSplitLoop (sep : GoString) : Nat → GoString → List GoString
  | 0, s => [s]
  | k + 1, s =>
    match Index s sep with
    | none => [s]
    | some m => s.take m :: genSplitLoop sep k (s.drop (m + sep.length))

/-- Go `strings.SplitN(s, sep, n)` for `n ≥ 0` and a non-empty `sep` (every call
site passes a non-empty literal): `nil` for `n = 0`, otherwise at most `n` pieces,
the last one being the unsplit rest.  Go caps `n` at `len(s) + 1`; a text has at
most one piece more than it has code points, so the cap by the number of code
points used here gives the same pieces. -/
def SplitN (s sep : GoString) (n : Nat) : List GoString :=
  if n = 0 then [] else genSplitLoop sep (min n (s.length + 1) - 1) s

/-- Go `strings.Split(s, sep)` for a non-empty `sep`: all pieces.  Go allots
`Count(s, sep) + 1` pieces, which is at most one more than the number of code
points; the loop stops at the first failed `Index`, so the larger allowance used
here gives the same pieces. -/
def Split (s sep : GoString) : List GoString := genSplitLoop sep s.length s

/-! ## Go maps -/

/-- Entries of a Go `map[string]string`. -/
abbrev GoMap := List (GoString × GoString)

/-- Map assignment `m[k] = v`. -/
def mapSet : GoMap → GoString → GoString → GoMap
  | [], k, v => [(k, v)]
  | (k', v') :: rest, k, v =>
    if k' = k then (k, v) :: rest else (k', v') :: mapSet rest k v

/-- Map lookup `m[k]` with the presence flag. -/
def mapGet : GoMap → GoString → Option GoString
  | [], _ => none
  | (k', v') :: rest, k => if k' = k then some v' else mapGet rest k

/-- Keys of a map. -/
def mapKeys (m : GoMap) : List GoString := m.map Prod.fst

/-! ## Go errors -/

/-- Error values the program handles. -/
inductive GoError where
  /-- the package variable `NotFoundError` -/
  | NotFoundError : GoError
  /-- the package variable `ContainerRunError` -/
  | ContainerRunError : GoError
  /-- a value made by `fmt.Errorf` without `%w`, or any error of the engine -/
  | plain (msg : GoString) : GoError
  /-- a value made by `fmt.Errorf` with `%w`: its text and the error it wraps -/
  | wrap (msg : GoString) (cause : GoError) : GoError
  deriving DecidableEq, Repr

/-- The method `Error()`. -/
def GoError.Error : GoError → GoString
  | .NotFoundError => "image not found".toList
  | .ContainerRunError => "error occured while running the image".toList
  | .plain msg => msg
  | .wrap msg _ => msg

/-- The method `Unwrap()` as `errors.Unwrap` sees it. -/
def GoError.Unwrap : GoError → Option GoError
  | .wrap _ cause => some cause
  | _ => none

/-- Go `errors.Is(err, target)` for the comparable error values of this model. -/
def errorsIs : GoError → GoError → Bool
  | .wrap msg cause, target => decide (GoError.wrap msg cause = target) || errorsIs cause target
  | e, target => decide (e = target)

/-! ## Response framing (`src/docker/service.go`) -/

/-- The struct `Headers`. -/
structure Headers where
  Header : GoMap
  deriving DecidableEq, Repr

/-- The Go result triple `([]byte, *Headers, error)`; `none` is `nil`. -/
structure Ret where
  body : Option GoString
  headers : Option Headers
  err : Option GoError
  deriving DecidableEq, Repr

/-- One iteration of the loop of `processHeader` on the line `header`. -/
def processHeaderStep (acc : GoMap × Bool) (header : GoString) : GoMap × Bool :=
  let hasContentType :=
    if HasPrefix (ToLower header) "content-type".toList then true else acc.2
  match SplitN header ":".toList 2 with
  | k :: v :: _ => (mapSet acc.1 k (TrimSpace v), hasContentType)
  | _ => (acc.1, hasContentType)

/-- The function `processHeader`. -/
def processHeader (str : GoString) : GoMap × Bool :=
  (Split str "\n".toList).foldl processHeaderStep ([], false)

/-- The function `processContainerLogs`.  `none` is the run-time panic of an index
out of range on `logsSplit`. -/
def processContainerLogs (out : GoString) : Option Ret :=
  let logsSplit := SplitN out "\n\n".toList 2
  match logsSplit with
  | [] => none
  | first :: rest =>
    let (headerMap, hasContentType) := processHeader first
    if !hasContentType then
      some ⟨none, none, some (.plain "does not contain content type in logs".toList)⟩
    else
      match rest with
      | [] => none
      | second :: _ => some ⟨some second, some ⟨headerMap⟩, none⟩

/-! ## The container runtime gateway (`src/docker/client.go`) -/

/-- The fields of `container.Config` that the service fills in. -/
structure Config where
  Image : GoString
  Cmd : List GoString
  Env : List GoString
  Tty : Bool
  deriving DecidableEq, Repr

/-- A log stream handed out by `ContainerLogs`, given by what `stdcopy.StdCopy`
makes of it: the bytes it writes to the stdout buffer and to the stderr buffer,
and the error it returns. -/
structure LogStream where
  stdout : GoString
  stderr : GoString
  copyErr : Option GoError
  deriving DecidableEq, Repr

/-- Which case of the `select` over the two channels of `ContainerWait` fires:
a receive on the error channel (with the received value, possibly `nil`), or a
receive on the status channel. -/
inductive WaitSignal where
  | errCh (err : Option GoError) : WaitSignal
  | statusCh : WaitSignal
  deriving DecidableEq, Repr

/-- The interface `ClientInterface`: the engine behind it is any state machine
over a state `σ`; every operation sees the current state and leaves a new one. -/
structure ClientInterface (σ : Type) where
  ImagePull : σ → GoString → Option GoError × σ
  ContainerCreate : σ → Config → Except GoError GoString × σ
  ContainerStart : σ → GoString → Option GoError × σ
  ContainerWait : σ → GoString → WaitSignal × σ
  ContainerLogs : σ → GoString → Except GoError LogStream × σ
  ContainerRemove : σ → GoString → Option GoError × σ
  ImageInspectWithRaw : σ → GoString → Option GoError × σ

/-- A call made on the gateway, with the arguments that vary. -/
inductive Call where
  | ImagePull (refStr : GoString) : Call
  | ContainerCreate (config : Config) : Call
  | ContainerStart (containerID : GoString) : Call
  | ContainerWait (containerID : GoString) : Call
  | ContainerLogs (containerID : GoString) : Call
  | ContainerRemove (containerID : GoString) : Call
  | ImageInspectWithRaw (imageID : GoString) : Call
  deriving DecidableEq, Repr

/-- Outcome of one run of a service method: the returned triple (`none` when the
run panics), the gateway calls in the order they were made, and the engine state
left behind. -/
structure Run (σ : Type) where
  ret : Option Ret
  calls : List Call
  state : σ

/-! ## The execution pipeline (`src/docker/service.go`) -/

/-- Go `fmt.Errorf(format ++ "%w", err)`: the text ends with the cause's text and
the value wraps the cause. -/
def errorfWrap (pre : GoString) (err : GoError) : GoError :=
  .wrap (pre ++ err.Error) err

/-- The function `runImage`. -/
def runImage {σ : Type} (cl : ClientInterface σ) (config : Config) (s0 : σ) : Run σ :=
  match cl.ContainerCreate s0 config with
  | (.error err, s1) =>
    ⟨some ⟨none, none, some (errorfWrap
        ("could not create a new container for image ".toList ++ config.Image ++
          " because: ".toList) err)⟩,
      [.ContainerCreate config], s1⟩
  | (.ok id, s1) =>
    match cl.ContainerStart s1 id with
    | (some err, s2) =>
      ⟨some ⟨none, none, some (errorfWrap "could not start container with: ".toList err)⟩,
        [.ContainerCreate config, .ContainerStart id], s2⟩
    | (none, s2) =>
      match cl.ContainerWait s2 id with
      | (.errCh (some err), s3) =>
        ⟨some ⟨none, none,
            some (errorfWrap "cannot wait for container to complete with: ".toList err)⟩,
          [.ContainerCreate config, .ContainerStart id, .ContainerWait id], s3⟩
      | (_, s3) =>
        match cl.ContainerLogs s3 id with
        | (.error err, s4) =>
          ⟨some ⟨none, none, some (errorfWrap "cannot get container logs with: ".toList err)⟩,
            [.ContainerCreate config, .ContainerStart id, .ContainerWait id,
              .ContainerLogs id], s4⟩
        | (.ok out, s4) =>
          match cl.ContainerRemove s4 id with
          | (some err, s5) =>
            ⟨some ⟨none, none, some (errorfWrap "cannot stop containers: ".toList err)⟩,
              [.ContainerCreate config, .ContainerStart id, .ContainerWait id,
                .ContainerLogs id, .ContainerRemove id], s5⟩
          | (none, s5) =>
            let calls := [Call.ContainerCreate config, .ContainerStart id, .ContainerWait id,
                .ContainerLogs id, .ContainerRemove id]
            match out.copyErr with
            | some err =>
              ⟨some ⟨none, none,
                  some (errorfWrap "cannot read logs from the container: ".toList err)⟩,
                calls, s5⟩
            | none =>
              if out.stderr.length > 0 then
                ⟨some ⟨none, none, some .ContainerRunError⟩, calls, s5⟩
              else
                ⟨processContainerLogs out.stdout, calls, s5⟩

/-- The method `Service.RunContainer`. -/
def Service.RunContainer {σ : Type} (cl : ClientInterface σ) (image : GoString)
    (params : List GoString) (s0 : σ) : Run σ :=
  match cl.ImagePull s0 image with
  | (some err, s1) =>
    ⟨some ⟨none, none,
        some (.wrap (GoError.NotFoundError.Error ++ ", ".toList ++ err.Error) .NotFoundError)⟩,
      [.ImagePull image], s1⟩
  | (none, s1) =>
    let r := runImage cl ⟨image, params, [], false⟩ s1
    ⟨r.ret, .ImagePull image :: r.calls, r.state⟩

/-- The method `Service.RunContainerPost`. -/
def Service.RunContainerPost {σ : Type} (cl : ClientInterface σ) (image : GoString)
    (reqBody : List GoString) (s0 : σ) : Run σ :=
  match cl.ImagePull s0 image with
  | (some err, s1) =>
    ⟨some ⟨none, none,
        some (.wrap (GoError.NotFoundError.Error ++ ", ".toList ++ err.Error) .NotFoundError)⟩,
      [.ImagePull image], s1⟩
  | (none, s1) =>
    let r := runImage cl ⟨image, [], reqBody, false⟩ s1
    ⟨r.ret, .ImagePull image :: r.calls, r.state⟩

/-- The method `Service.ImageExists`. -/
def Service.ImageExists {σ : Type} (cl : ClientInterface σ) (image : GoString) (s0 : σ) : Bool × σ :=
  match cl.ImageInspectWithRaw s0 image with
  | (some _, s1) => (false, s1)
  | (none, s1) => (true, s1)

/-- The interface `ServiceInterface` as the HTTP handlers see it. -/
structure ServiceInterface (σ : Type) where
  RunContainer : σ → GoString → List GoString → Option Ret × σ
  RunContainerPost : σ → GoString → List GoString → Option Ret × σ
  ImageExists : σ → GoString → Bool × σ

/-- The function `NewService`: the real service over a gateway. -/
def NewService {σ : Type} (cl : ClientInterface σ) : ServiceInterface σ where
  RunContainer := fun s image params =>
    let r := Service.RunContainer cl image params s
    (r.ret, r.state)
  RunContainerPost := fun s image reqBody =>
    let r := Service.RunContainerPost cl image reqBody s
    (r.ret, r.state)
  ImageExists := fun s image => Service.ImageExists cl image s

/-! ## The HTTP handlers (`src/v1/docker/exec.go`) -/

/-- Bytes of a Go string or slice. -/
abbrev Bytes := List Nat

/-- UTF-8 encoding of one code point. -/
def utf8EncodeRune (c : Char) : Bytes :=
  let v := c.toNat
  if v < 0x80 then [v]
  else if v < 0x800 then [0xC0 + v / 64, 0x80 + v % 64]
  else if v < 0x10000 then [0xE0 + v / 4096, 0x80 + v / 64 % 64, 0x80 + v % 64]
  else [0xF0 + v / 262144, 0x80 + v / 4096 % 64, 0x80 + v / 64 % 64, 0x80 + v % 64]

/-- The bytes of a Go string. -/
def utf8Bytes (s : GoString) : Bytes := (s.map utf8EncodeRune).flatten

/-- The struct `event`.  `Content` is a Go string that may end inside a code point,
so it is kept as bytes. -/
structure event where
  Image : GoString
  Tag : GoString
  RequestTime : Nat
  Params : List GoString
  Method : GoString
  ResponseTime : Nat
  ImageExistsInLocal : Bool
  Headers : Option GoMap
  Error : GoString
  ContentMD5 : Bytes
  Content : Bytes
  deriving DecidableEq, Repr

/-- What the handlers read from their surroundings: the configuration keys
`REGISTRY` and `CONTENT_LENGTH`, the registry's answer to the tag-list request for
a URL (an error stands for a failed request or a failed decoding), the clock at
request entry and at logging, and the MD5 digest function. -/
structure Env where
  REGISTRY : GoString
  CONTENT_LENGTH : Int
  tagsList : GoString → Except GoError (List GoString)
  requestTime : Nat
  responseTime : Nat
  md5 : GoString → Bytes

/-- The parts of the HTTP request the handlers read. -/
structure Request where
  method : GoString
  image_name : GoString
  tag : GoString
  query : GoString
  body : GoString
  deriving DecidableEq, Repr

/-- A value in a `fiber.Map`. -/
inductive JsonValue where
  | bool (b : Bool) : JsonValue
  | str (s : GoString) : JsonValue
  deriving DecidableEq, Repr

/-- The body of the response: raw bytes, or a `fiber.Map` sent as JSON. -/
inductive ResponseBody where
  | raw (content : GoString) : ResponseBody
  | json (fields : List (GoString × JsonValue)) : ResponseBody
  deriving DecidableEq, Repr

/-- What a handler does to its `fiber.Ctx`, at the level of the calls it makes: the
status it sets, the body it sends, and the header fields it hands over, each with
the name and the value as passed to the call (`JSON` hands over the content type,
`Set` the field it is given), in the order of the calls.  The header block that
the HTTP library then writes from these fields is not code of this repository and
is not modelled: the library normalises the case of header names, so that names
that differ only in case fall together, and writes `Content-Length` from the body
it sends. -/
structure Ctx where
  status : Nat
  body : ResponseBody
  headerFields : List (GoString × GoString)
  deriving DecidableEq, Repr

/-- A fresh context: status 200, empty body, no header field handed over. -/
def Ctx.new : Ctx := ⟨200, .raw [], []⟩

/-- The method `Ctx.Status`. -/
def Ctx.Status (c : Ctx) (status : Nat) : Ctx := { c with status := status }

/-- The method `Ctx.JSON`: the value becomes the body, and the content type
`application/json` is handed over. -/
def Ctx.JSON (c : Ctx) (fields : List (GoString × JsonValue)) : Ctx :=
  { c with body := .json fields,
           headerFields :=
             c.headerFields ++ [("Content-Type".toList, "application/json".toList)] }

/-- The method `Ctx.Send`. -/
def Ctx.Send (c : Ctx) (content : GoString) : Ctx := { c with body := .raw content }

/-- The method `Ctx.Set`: the field is handed over with the name and the value as
they are passed; what the library makes of the name is outside the model. -/
def Ctx.Set (c : Ctx) (key val : GoString) : Ctx :=
  { c with headerFields := c.headerFields ++ [(key, val)] }

/-- Lexicographic byte order on strings, as `sort.Strings` uses it (`a ≤ b`).  The
comparison is by code points, which UTF-8 encodes in an order-preserving way, so it
is the order of the bytes. -/
def strLe : GoString → GoString → Bool
  | [], _ => true
  | _ :: _, [] => false
  | a :: as, b :: bs => a.toNat < b.toNat || (a == b && strLe as bs)

/-- Insert a string into a sorted list. -/
def insertSorted (x : GoString) : List GoString → List GoString
  | [] => [x]
  | y :: ys => if strLe x y then x :: y :: ys else y :: insertSorted x ys

/-- Go `sort.Strings`: the strings in increasing order. -/
def sortStrings (tags : List GoString) : List GoString := tags.foldr insertSorted []

/-- The function `getOriginalTag`.  The outer `none` is the panic of the index
`len(tags)-2` on fewer than two tags. -/
def getOriginalTag (env : Env) (repository imageName : GoString) :
    Option (GoString × Option GoError) :=
  let url := "https://".toList ++ repository ++ "/v2/".toList ++ imageName ++ "/tags/list".toList
  match env.tagsList url with
  | .error err => some ([], some err)
  | .ok tags =>
    let sorted := sortStrings tags
    if sorted.length < 2 then none else some (sorted.getD (sorted.length - 2) [], none)

/-- The function `firstNCharacter`.  `none` is the panic of the slice `data[0:n]`
on a negative `n`. -/
def firstNCharacter (env : Env) (data : GoString) : Option Bytes :=
  let n := env.CONTENT_LENGTH
  if ((utf8Bytes data).length : Int) < n then some (utf8Bytes data)
  else if n < 0 then none
  else some ((utf8Bytes data).take n.toNat)

/-- The function `logRequestAndResponse`: the entry that is written. -/
def logRequestAndResponse (env : Env) (ev : event) (err : GoString) (header : Option GoMap) :
    event :=
  { ev with Error := err, ResponseTime := env.responseTime, Headers := header }

/-- A call made on the service by a handler. -/
inductive ServiceCall where
  | ImageExists (image : GoString) : ServiceCall
  | RunContainer (image : GoString) (params : List GoString) : ServiceCall
  | RunContainerPost (image : GoString) (reqBody : List GoString) : ServiceCall
  deriving DecidableEq, Repr

/-- Outcome of one run of a handler: the response (`none` when the handler
panics), the audit entries written, the calls made on the service, the state the
service is left in. -/
structure HandlerRun (σ : Type) where
  response : Option Ctx
  events : List event
  calls : List ServiceCall
  state : σ

/-- The `fiber.Map` both handlers send on an error. -/
def errorEnvelope (err : GoError) : List (GoString × JsonValue) :=
  [("error".toList, .bool true), ("msg".toList, .str err.Error)]

/-- The handler returned by `RunContainerGet`. -/
def RunContainerGet {σ : Type} (dockerService : ServiceInterface σ) (env : Env)
    (req : Request) (s0 : σ) : HandlerRun σ :=
  let registry := env.REGISTRY
  let params := if req.query ≠ [] then [req.query] else []
  let imageName := req.image_name
  let image := registry ++ "/".toList ++ imageName ++ ":".toList ++ req.tag
  let resolved :=
    if req.tag = "latest".toList then (getOriginalTag env registry imageName).map Prod.fst
    else some req.tag
  match resolved with
  | none => ⟨none, [], [], s0⟩
  | some tag =>
    let (found, s1) := dockerService.ImageExists s0 image
    let ev : event := ⟨imageName, tag, env.requestTime, params, req.method, 0, found,
      none, [], [], []⟩
    let calls := [ServiceCall.ImageExists image, .RunContainer image params]
    match dockerService.RunContainer s1 image params with
    | (none, s2) => ⟨none, [], calls, s2⟩
    | (some ⟨_, _, some err⟩, s2) =>
      let logged := [logRequestAndResponse env ev err.Error none]
      if err = GoError.NotFoundError then
        ⟨some ((Ctx.new.Status 404).JSON (errorEnvelope err)), logged, calls, s2⟩
      else
        ⟨some ((Ctx.new.Status 500).JSON (errorEnvelope err)), logged, calls, s2⟩
    | (some ⟨out, header, none⟩, s2) =>
      let c := Ctx.new.Send (out.getD [])
      match header with
      | none => ⟨none, [], calls, s2⟩
      | some header =>
        let c := header.Header.foldl (fun c kv => c.Set kv.1 kv.2) c
        match firstNCharacter env (out.getD []) with
        | none => ⟨none, [], calls, s2⟩
        | some content =>
          let ev := { ev with ContentMD5 := env.md5 (out.getD []), Content := content }
          ⟨some c, [logRequestAndResponse env ev [] (some header.Header)], calls, s2⟩

/-- The handler returned by `RunContainerPost` of the HTTP layer. -/
def RunContainerPost {σ : Type} (dockerService : ServiceInterface σ) (env : Env)
    (req : Request) (s0 : σ) : HandlerRun σ :=
  let registry := env.REGISTRY
  let params := if req.body ≠ [] then ["POST_DATA=".toList ++ req.body] else []
  let imageName := req.image_name
  let image := registry ++ "/".toList ++ imageName ++ ":".toList ++ req.tag
  let (found, s1) := dockerService.ImageExists s0 image
  let resolved :=
    if req.tag = "latest".toList then (getOriginalTag env registry imageName).map Prod.fst
    else some req.tag
  match resolved with
  | none => ⟨none, [], [.ImageExists image], s1⟩
  | some tag =>
    let ev : event := ⟨imageName, [], env.requestTime, params, req.method, 0, found,
      none, [], [], []⟩
    let calls := [ServiceCall.ImageExists image, .RunContainerPost image params]
    match dockerService.RunContainerPost s1 image params with
    | (none, s2) => ⟨none, [], calls, s2⟩
    | (some ⟨_, _, some err⟩, s2) =>
      let logged := [logRequestAndResponse env ev err.Error none]
      if err = GoError.NotFoundError then
        ⟨some ((Ctx.new.Status 404).JSON (errorEnvelope err)), logged, calls, s2⟩
      else
        ⟨some ((Ctx.new.Status 500).JSON (errorEnvelope err)), logged, calls, s2⟩
    | (some ⟨out, header, none⟩, s2) =>
      let c := Ctx.new.Send (out.getD [])
      match header with
      | none => ⟨none, [], calls, s2⟩
      | some header =>
        let c := header.Header.foldl (fun c kv => c.Set kv.1 kv.2) c
        match firstNCharacter env (out.getD []) with
        | none => ⟨none, [], calls, s2⟩
        | some content =>
          let ev := { ev with ContentMD5 := env.md5 (out.getD []), Content := content }
          let ev := { ev with Tag := tag }
          ⟨some c, [logRequestAndResponse env ev [] (some header.Header)], calls, s2⟩

/-! ## Notions of the specification used to state the theorems -/

/-- Lines joined by single newlines. -/
def joinLines : List GoString → GoString
  | [] => []
  | [l] => l
  | l :: rest => l ++ '\n' :: joinLines rest

/-- The test `processHeader` applies to a line: it starts with `content-type`,
ignoring case. -/
def startsWithContentType (line : GoString) : Bool :=
  HasPrefix (ToLower line) "content-type".toList

/-- The key of a header line: its text before the first colon. -/
def lineKey (line : GoString) : GoString := line.takeWhile (· != ':')

/-- The raw value of a header line: its text after the first colon. -/
def lineValue (line : GoString) : GoString := (line.dropWhile (· != ':')).drop 1

/-- The key of the line equals `content-type`, ignoring case. -/
def keyIsContentType (line : GoString) : Bool :=
  ToLower (lineKey line) == "content-type".toList

/-- The header block of a stdout text: the text before the first `"\n\n"`, the
whole text when there is none. -/
def headerBlock (out : GoString) : GoString :=
  match Index out "\n\n".toList with
  | some m => out.take m
  | none => out

/-- The lines of the header block. -/
def headerLines (out : GoString) : List GoString := Split (headerBlock out) "\n".toList

/-- The value the specification gives to key `k`: the trimmed raw value of the last
line with a colon whose key is `k`. -/
def specHeaderValue (lines : List GoString) (k : GoString) : Option GoString :=
  ((lines.filter (fun l => decide (':' ∈ l) && decide (lineKey l = k))).getLast?).map
    (fun l => TrimSpace (lineValue l))

/-- The run of `runImage` on `config` from engine state `s0` gets as far as
demultiplexing: creation returns the ID `id`, start succeeds, the wait ends without
an error, the logs call hands out the stream `out`, and the removal succeeds,
leaving the engine in state `s5`. -/
def ReachesDemux {σ : Type} (cl : ClientInterface σ) (config : Config) (s0 : σ)
    (id : GoString) (out : LogStream) (s5 : σ) : Prop :=
  ∃ s1 s2 w s3 s4,
    cl.ContainerCreate s0 config = (.ok id, s1) ∧
    cl.ContainerStart s1 id = (none, s2) ∧
    cl.ContainerWait s2 id = (w, s3) ∧ (∀ err, w ≠ .errCh (some err)) ∧
    cl.ContainerLogs s3 id = (.ok out, s4) ∧
    cl.ContainerRemove s4 id = (none, s5)

/-- The number of `ContainerRemove` calls for the container `id` in a call list. -/
def removeCount (id : GoString) (calls : List Call) : Nat :=
  calls.count (.ContainerRemove id)

/-- The image reference both handlers build from the request. -/
def imageRef (env : Env) (req : Request) : GoString :=
  env.REGISTRY ++ "/".toList ++ req.image_name ++ ":".toList ++ req.tag

/-- The parameter list the GET handler builds: the query string, when not empty. -/
def getParams (req : Request) : List GoString :=
  if req.query ≠ [] then [req.query] else []

/-- The parameter list the POST handler builds: the request body, when not empty,
after `POST_DATA=`. -/
def postParams (req : Request) : List GoString :=
  if req.body ≠ [] then ["POST_DATA=".toList ++ req.body] else []

/-- The handler gets past the tag resolution: for the tag `latest` the look-up of
the published tags does not panic. -/
def TagResolves (env : Env) (req : Request) : Prop :=
  req.tag = "latest".toList → getOriginalTag env env.REGISTRY req.image_name ≠ none

instance (env : Env) (req : Request) : Decidable (TagResolves env req) := by
  unfold TagResolves
  infer_instance

/-- The content preview in the words of the specification: the body unchanged when
it has fewer than `n` characters, otherwise its first `n` characters. -/
def specPreview (n : Nat) (body : GoString) : GoString :=
  if body.length < n then body else body.take n

/-- The order of `sort.Strings` as a relation. -/
def StrLe (a b : GoString) : Prop := strLe a b = true

instance (a b : GoString) : Decidable (StrLe a b) := by
  unfold StrLe
  infer_instance

/-- The string `t` is the second-highest tag of `tags`: the list has a highest tag
`top`, `t` is a tag of the list other than `top`, and every tag of the list other
than `top` is at most `t`. -/
def IsSecondHighest (tags : List GoString) (t : GoString) : Prop :=
  ∃ top ∈ tags, (∀ x ∈ tags, StrLe x top) ∧ t ∈ tags ∧ t ≠ top ∧
    ∀ x ∈ tags, x ≠ top → StrLe x t

instance (tags : List GoString) (t : GoString) : Decidable (IsSecondHighest tags t) := by
  unfold IsSecondHighest
  infer_instance

/-- The address `getOriginalTag` asks for the published tags. -/
def tagsURL (repository imageName : GoString) : GoString :=
  "https://".toList ++ repository ++ "/v2/".toList ++ imageName ++ "/tags/list".toList

/-! ## Concrete inputs at which the theorems are instantiated -/

/-- A stdout text with a repeated key and a value that holds colons. -/
def stdoutRepeatedKey : GoString :=
  "Content-Type: a\nContent-Type: text/html\nForwarded: by=_hidden;host:dev\n\n{}".toList

/-- What `processContainerLogs` returns on `stdoutRepeatedKey`. -/
def retRepeatedKey : Ret :=
  ⟨some "{}".toList,
    some ⟨[("Content-Type".toList, "text/html".toList),
      ("Forwarded".toList, "by=_hidden;host:dev".toList)]⟩, none⟩

/-- The answers an engine gives in one run, one per operation. -/
structure Script where
  pull : Option GoError
  create : Except GoError GoString
  start : Option GoError
  wait : WaitSignal
  logs : Except GoError LogStream
  remove : Option GoError
  inspect : Option GoError

/-- The gateway that answers every call from a script. -/
def scripted (sc : Script) : ClientInterface Unit where
  ImagePull := fun _ _ => (sc.pull, ())
  ContainerCreate := fun _ _ => (sc.create, ())
  ContainerStart := fun _ _ => (sc.start, ())
  ContainerWait := fun _ _ => (sc.wait, ())
  ContainerLogs := fun _ _ => (sc.logs, ())
  ContainerRemove := fun _ _ => (sc.remove, ())
  ImageInspectWithRaw := fun _ _ => (sc.inspect, ())

/-- A framed response on stdout, nothing on stderr. -/
def framedStream : LogStream :=
  ⟨"Content-Type: text/plain\n\nhello".toList, [], none⟩

/-- A framed response on stdout together with a warning on stderr. -/
def warningStream : LogStream :=
  ⟨"Content-Type: text/plain\n\nhello".toList, "warning: deprecated".toList, none⟩

/-- An engine on which every operation succeeds. -/
def allSucceed (out : LogStream) : Script :=
  ⟨none, .ok "c1".toList, none, .statusCh, .ok out, none, none⟩

/-- An engine on which the container is created and then fails to start. -/
def startFails : Script :=
  { allSucceed framedStream with start := some (.plain "OCI runtime create failed".toList) }

/-- An engine on which the wait reports an error. -/
def waitFails : Script :=
  { allSucceed framedStream with wait := .errCh (some (.plain "context canceled".toList)) }

/-- An engine on which the logs cannot be fetched. -/
def logsFail : Script :=
  { allSucceed framedStream with logs := .error (.plain "no such container".toList) }

/-- An engine on which the pull of the image fails with `cause`. -/
def pullFailsWith (cause : GoError) : Script :=
  { allSucceed framedStream with pull := some cause }

/-- An engine on which the image cannot be pulled. -/
def pullFails : Script := pullFailsWith (.plain "no such image".toList)

/-- An engine on which the container cannot be created. -/
def createFails : Script :=
  { allSucceed framedStream with
    create := .error (.plain "/bin/sh executable not found".toList) }

/-- The configuration `RunContainer` builds for the image `alpine` and the
parameter `json`. -/
def alpineConfig : Config := ⟨"alpine".toList, ["json".toList], [], false⟩

/-- A substitute service as the handler tests use it: both run methods return
`ret`, the image is reported as present. -/
def mockService (ret : Ret) : ServiceInterface Unit where
  RunContainer := fun _ _ _ => (some ret, ())
  RunContainerPost := fun _ _ _ => (some ret, ())
  ImageExists := fun _ _ => (true, ())

/-- A configuration with a registry, a preview of at most 10 bytes, three published
tags, a fixed clock and a digest function that returns no bytes. -/
def sampleEnv : Env :=
  ⟨"registry.example.com".toList, 10,
    fun _ => .ok ["1.0".toList, "1.1".toList, "latest".toList], 1, 2, fun _ => []⟩

/-- A GET request for `alpine:3.18` with the query `json`. -/
def getAlpine : Request := ⟨"GET".toList, "alpine".toList, "3.18".toList, "json".toList, []⟩

/-- A POST request for `alpine:latest` with a body. -/
def postAlpine : Request := ⟨"POST".toList, "alpine".toList, "latest".toList, [], "x=1".toList⟩

/-- The failure the handler tests return from the substitute service. -/
def internalErrorRet : Ret := ⟨none, some ⟨[]⟩, some (.plain "internal error".toList)⟩

/-- A success with a body and two headers. -/
def successRet : Ret :=
  ⟨some "content of response".toList,
    some ⟨[("Content-Type".toList, "text/html".toList), ("x-request-id".toList, "7".toList)]⟩,
    none⟩

/-- A GET request for `alpine:latest`. -/
def getAlpineLatest : Request :=
  ⟨"GET".toList, "alpine".toList, "latest".toList, "json".toList, []⟩

/-- A POST request for `alpine:3.18` with a body. -/
def postAlpineTagged : Request :=
  ⟨"POST".toList, "alpine".toList, "3.18".toList, [], "x=1".toList⟩

/-- The sample configuration with a preview of at most `n` bytes. -/
def envPreview (n : Int) : Env := { sampleEnv with CONTENT_LENGTH := n }

/-- The sample configuration with the published tags `tags`. -/
def envTags (tags : List GoString) : Env := { sampleEnv with tagsList := fun _ => .ok tags }

/-- A tag list in which the highest tag is published twice. -/
def tagsRepeatedTop : List GoString := ["b".toList, "a".toList, "b".toList]

/-- A tag list of three distinct tags, not in order. -/
def tagsUnordered : List GoString := ["latest".toList, "1.0".toList, "1.1".toList]

/-! ## Lemmas on the string functions -/

theorem isPrefixOf_cons_of_ne {c x : Char} (sep s : GoString) (h : x ≠ c) :
    List.isPrefixOf (c :: sep) (x :: s) = false := by
  simp [List.isPrefixOf, Ne.symm h]

theorem Index_cons_of_ne {c x : Char} (sep s : GoString) (h : x ≠ c) :
    Index (x :: s) (c :: sep) = (Index s (c :: sep)).map (· + 1) := by
  simp [Index, isPrefixOf_cons_of_ne sep s h]

theorem Index_append_of_not_mem {c : Char} (sep : GoString) (l s : GoString) (h : c ∉ l) :
    Index (l ++ s) (c :: sep) = (Index s (c :: sep)).map (· + l.length) := by
  induction l with
  | nil => simp
  | cons x xs ih =>
    have hx : x ≠ c := fun e => h (by simp [e])
    have hxs : c ∉ xs := fun e => h (by simp [e])
    rw [List.cons_append, Index_cons_of_ne sep _ hx, ih hxs]
    cases Index s (c :: sep) <;> simp [Nat.add_assoc]

theorem Index_of_isPrefixOf (s sep : GoString) (h : sep.isPrefixOf s = true) :
    Index s sep = some 0 := by
  cases s <;> simp [Index, h]

theorem Index_nil_cons (c : Char) (sep : GoString) : Index [] (c :: sep) = none := by
  simp [Index, List.isPrefixOf]

theorem Index_single_of_not_mem {c : Char} (l : GoString) (h : c ∉ l) :
    Index l [c] = none := by
  have := Index_append_of_not_mem [] l [] h
  simpa [Index_nil_cons] using this

theorem Index_single_append {c : Char} (l t : GoString) (h : c ∉ l) :
    Index (l ++ c :: t) [c] = some l.length := by
  rw [Index_append_of_not_mem [] l _ h, Index_of_isPrefixOf _ _ (by simp [List.isPrefixOf])]
  simp

theorem joinLines_cons_cons (l l2 : GoString) (rest : List GoString) :
    joinLines (l :: l2 :: rest) = l ++ '\n' :: joinLines (l2 :: rest) := rfl

theorem joinLines_head (l : GoString) (rest : List GoString) (hl : l ≠ []) (hn : '\n' ∉ l) :
    ∃ y t, joinLines (l :: rest) = y :: t ∧ y ≠ '\n' := by
  cases l with
  | nil => exact absurd rfl hl
  | cons y ys =>
    have hy : y ≠ '\n' := fun e => hn (by simp [e])
    cases rest with
    | nil => exact ⟨y, ys, rfl, hy⟩
    | cons l2 rest' => exact ⟨y, ys ++ '\n' :: joinLines (l2 :: rest'), rfl, hy⟩

theorem Index_blank_joinLines (lines : List GoString) (b : GoString) (hne : lines ≠ [])
    (h : ∀ l ∈ lines, l ≠ [] ∧ '\n' ∉ l) :
    Index (joinLines lines ++ '\n' :: '\n' :: b) ['\n', '\n'] = some (joinLines lines).length := by
  induction lines with
  | nil => exact absurd rfl hne
  | cons l rest ih =>
    have hl := h l (by simp)
    cases rest with
    | nil =>
      simp only [joinLines]
      rw [Index_append_of_not_mem _ l _ hl.2,
        Index_of_isPrefixOf _ _ (by simp [List.isPrefixOf])]
      simp
    | cons l2 rest' =>
      have ih' := ih (by simp) (fun x hx => h x (by simp [hx]))
      have hl2 := h l2 (by simp)
      obtain ⟨y, t, hyt, hy⟩ := joinLines_head l2 rest' hl2.1 hl2.2
      rw [joinLines_cons_cons, List.append_assoc, Index_append_of_not_mem _ l _ hl.2,
        List.cons_append]
      have hstep : Index ('\n' :: (joinLines (l2 :: rest') ++ '\n' :: '\n' :: b)) ['\n', '\n']
          = (Index (joinLines (l2 :: rest') ++ '\n' :: '\n' :: b) ['\n', '\n']).map (· + 1) := by
        rw [hyt]
        simp [Index, List.isPrefixOf, hy.symm]
      rw [hstep, ih']
      simp [Nat.add_comm, Nat.add_left_comm]

theorem genSplitLoop_joinLines (lines : List GoString) (hne : lines ≠ [])
    (h : ∀ l ∈ lines, '\n' ∉ l) (k : Nat) (hk : lines.length ≤ k + 1) :
    genSplitLoop ['\n'] k (joinLines lines) = lines := by
  induction lines generalizing k with
  | nil => exact absurd rfl hne
  | cons l rest ih =>
    have hl := h l (by simp)
    cases rest with
    | nil =>
      cases k <;> simp [joinLines, genSplitLoop, Index_single_of_not_mem l hl]
    | cons l2 rest' =>
      cases k with
      | zero => simp at hk
      | succ k' =>
        have ih' := ih (by simp) (fun x hx => h x (List.mem_cons_of_mem _ hx)) k'
          (by simpa using hk)
        rw [joinLines_cons_cons]
        simp only [genSplitLoop, Index_single_append l _ hl]
        simp [ih']

theorem joinLines_length (lines : List GoString) : lines.length ≤ (joinLines lines).length + 1 := by
  induction lines with
  | nil => simp
  | cons l rest ih =>
    cases rest with
    | nil => simp [joinLines]
    | cons l2 rest' =>
      rw [joinLines_cons_cons]
      simp only [List.length_cons, List.length_append] at ih ⊢
      omega

theorem Split_joinLines (lines : List GoString) (hne : lines ≠ [])
    (h : ∀ l ∈ lines, '\n' ∉ l) : Split (joinLines lines) "\n".toList = lines :=
  genSplitLoop_joinLines lines hne h _ (joinLines_length lines)

theorem Index_some_ne_nil {s : GoString} {c : Char} {sep : GoString} {m : Nat}
    (h : Index s (c :: sep) = some m) : s ≠ [] := by
  intro e
  subst e
  simp [Index_nil_cons] at h

theorem SplitN_two_of_Index_some {s : GoString} {c : Char} {sep : GoString} {m : Nat}
    (h : Index s (c :: sep) = some m) :
    SplitN s (c :: sep) 2 = [s.take m, s.drop (m + (c :: sep).length)] := by
  have hs := Index_some_ne_nil h
  have hlen : 0 < s.length := List.length_pos.mpr hs
  have hmin : min 2 (s.length + 1) - 1 = 1 := by omega
  simp [SplitN, hmin, genSplitLoop, h]

theorem SplitN_two_of_Index_none {s sep : GoString} (h : Index s sep = none) :
    SplitN s sep 2 = [s] := by
  have hmin : min 2 (s.length + 1) - 1 = 0 ∨ min 2 (s.length + 1) - 1 = 1 := by omega
  rcases hmin with h0 | h1
  · simp [SplitN, h0, genSplitLoop]
  · simp [SplitN, h1, genSplitLoop, h]

theorem SplitN_two_eq_headerBlock (out : GoString) :
    ∃ rest, SplitN out "\n\n".toList 2 = headerBlock out :: rest := by
  show ∃ rest, SplitN out ('\n' :: ['\n']) 2 = headerBlock out :: rest
  have hb : headerBlock out = match Index out ('\n' :: ['\n']) with
      | some m => out.take m
      | none => out := rfl
  cases hidx : Index out ('\n' :: ['\n']) with
  | none =>
    rw [hb, hidx]
    exact ⟨[], SplitN_two_of_Index_none hidx⟩
  | some m =>
    rw [hb, hidx]
    exact ⟨[out.drop (m + 2)], SplitN_two_of_Index_some hidx⟩

/-! ## Lemmas on `processHeader` -/

theorem processHeaderStep_snd (acc : GoMap × Bool) (l : GoString) :
    (processHeaderStep acc l).2 = (startsWithContentType l || acc.2) := by
  unfold processHeaderStep startsWithContentType
  cases hp : HasPrefix (ToLower l) "content-type".toList <;> simp only [hp] <;>
    split <;> simp

theorem foldl_processHeaderStep_snd (lines : List GoString) (acc : GoMap × Bool) :
    (lines.foldl processHeaderStep acc).2 = (acc.2 || lines.any startsWithContentType) := by
  induction lines generalizing acc with
  | nil => simp
  | cons l rest ih =>
    rw [List.foldl_cons, ih, processHeaderStep_snd, List.any_cons]
    cases h1 : startsWithContentType l <;> cases h2 : acc.2 <;> simp

theorem processHeader_snd (str : GoString) :
    (processHeader str).2 = (Split str "\n".toList).any startsWithContentType := by
  simp [processHeader, foldl_processHeaderStep_snd]

theorem processContainerLogs_of_split {out first : GoString} {rest : List GoString}
    (h : SplitN out "\n\n".toList 2 = first :: rest) :
    processContainerLogs out =
      if (processHeader first).2 = false then
        some ⟨none, none, some (.plain "does not contain content type in logs".toList)⟩
      else match rest with
        | [] => none
        | second :: _ => some ⟨some second, some ⟨(processHeader first).1⟩, none⟩ := by
  unfold processContainerLogs
  simp only [h]
  cases hp : processHeader first with
  | mk hm hct => cases hct <;> simp

/-! ## Lemmas on maps and on the header loop -/

theorem mapGet_mapSet (m : GoMap) (k v k' : GoString) :
    mapGet (mapSet m k v) k' = if k = k' then some v else mapGet m k' := by
  induction m with
  | nil => simp [mapSet, mapGet]
  | cons e rest ih =>
    obtain ⟨k0, v0⟩ := e
    by_cases h0 : k0 = k
    · subst h0
      by_cases h1 : k0 = k' <;> simp [mapSet, mapGet, h1]
    · by_cases h1 : k0 = k'
      · subst h1
        simp [mapSet, mapGet, h0, Ne.symm h0]
      · simp [mapSet, mapGet, h0, h1, ih]

theorem mem_mapKeys_iff (m : GoMap) (k : GoString) :
    k ∈ mapKeys m ↔ (mapGet m k).isSome = true := by
  induction m with
  | nil => simp [mapKeys, mapGet]
  | cons e rest ih =>
    obtain ⟨k0, v0⟩ := e
    by_cases h0 : k0 = k
    · simp [mapKeys, mapGet, h0]
    · have ih' : k ∈ List.map Prod.fst rest ↔ (mapGet rest k).isSome = true := ih
      simp only [mapKeys, List.map_cons, List.mem_cons, mapGet, h0, if_false, ih']
      constructor
      · rintro (h | h)
        · exact absurd h.symm h0
        · exact h
      · exact Or.inr

theorem mapKeys_mapSet_nodup (m : GoMap) (k v : GoString) (h : (mapKeys m).Nodup) :
    (mapKeys (mapSet m k v)).Nodup := by
  induction m with
  | nil => simp [mapSet, mapKeys]
  | cons e rest ih =>
    obtain ⟨k0, v0⟩ := e
    have hcons : k0 ∉ mapKeys rest ∧ (mapKeys rest).Nodup := by
      simpa [mapKeys] using h
    by_cases h0 : k0 = k
    · subst h0
      simpa [mapSet, mapKeys] using h
    · have hrest := ih hcons.2
      have hnot : k0 ∉ mapKeys (mapSet rest k v) := by
        rw [mem_mapKeys_iff, mapGet_mapSet]
        simp only [Ne.symm h0, if_false]
        rw [← mem_mapKeys_iff]
        exact hcons.1
      have hgoal : (k0 :: mapKeys (mapSet rest k v)).Nodup := List.nodup_cons.mpr ⟨hnot, hrest⟩
      simpa [mapSet, h0, mapKeys] using hgoal

theorem takeWhile_dropWhile_of_mem (c : Char) (s : GoString) (h : c ∈ s) :
    ∃ t, s.dropWhile (· != c) = c :: t ∧ s = s.takeWhile (· != c) ++ c :: t := by
  induction s with
  | nil => simp at h
  | cons x xs ih =>
    by_cases hx : x = c
    · subst hx
      exact ⟨xs, by simp [List.dropWhile], by simp [List.takeWhile]⟩
    · have hmem : c ∈ xs := by
        rcases List.mem_cons.mp h with h1 | h1
        · exact absurd h1.symm hx
        · exact h1
      obtain ⟨t, h1, h2⟩ := ih hmem
      have hb : (x != c) = true := by simp [hx]
      refine ⟨t, ?_, ?_⟩
      · simp only [List.dropWhile, hb, h1]
      · simp only [List.takeWhile, hb]
        rw [List.cons_append, ← h2]

theorem not_mem_takeWhile_ne (c : Char) (s : GoString) : c ∉ s.takeWhile (· != c) := by
  intro h
  have := List.mem_takeWhile_imp h
  simp at this

theorem SplitN_colon (l : GoString) :
    SplitN l ":".toList 2 = if ':' ∈ l then [lineKey l, lineValue l] else [l] := by
  show SplitN l (':' :: []) 2 = _
  by_cases h : ':' ∈ l
  · obtain ⟨t, hd, hs⟩ := takeWhile_dropWhile_of_mem ':' l h
    have hidx : Index l (':' :: []) = some (l.takeWhile (· != ':')).length := by
      conv_lhs => rw [hs]
      exact Index_single_append _ _ (not_mem_takeWhile_ne ':' l)
    rw [SplitN_two_of_Index_some hidx, if_pos h]
    have h1 : List.take (l.takeWhile (· != ':')).length l = lineKey l := by
      rw [congrArg (List.take (l.takeWhile (· != ':')).length) hs]
      simp [lineKey]
    have h2 : List.drop ((l.takeWhile (· != ':')).length + (':' :: []).length) l
        = lineValue l := by
      rw [congrArg (List.drop ((l.takeWhile (· != ':')).length + (':' :: []).length)) hs]
      simp [lineValue, hd]
    rw [h1, h2]
  · rw [SplitN_two_of_Index_none (Index_single_of_not_mem l h), if_neg h]

theorem processHeaderStep_fst (acc : GoMap × Bool) (l : GoString) :
    (processHeaderStep acc l).1 =
      if ':' ∈ l then mapSet acc.1 (lineKey l) (TrimSpace (lineValue l)) else acc.1 := by
  unfold processHeaderStep
  rw [SplitN_colon]
  by_cases h : ':' ∈ l <;> simp [h]

theorem specHeaderValue_cons (l : GoString) (rest : List GoString) (k : GoString) :
    specHeaderValue (l :: rest) k =
      (specHeaderValue rest k).or
        (if ':' ∈ l ∧ lineKey l = k then some (TrimSpace (lineValue l)) else none) := by
  unfold specHeaderValue
  by_cases h : ':' ∈ l ∧ lineKey l = k
  · have hp : (decide (':' ∈ l) && decide (lineKey l = k)) = true := by simp [h.1, h.2]
    rw [List.filter_cons]
    simp only [hp, if_true]
    rw [List.getLast?_cons, if_pos h]
    cases List.getLast? (List.filter (fun l => decide (':' ∈ l) && decide (lineKey l = k)) rest)
      <;> simp
  · have hp : ¬ (decide (':' ∈ l) && decide (lineKey l = k)) = true := by
      simpa using h
    rw [List.filter_cons]
    simp only [hp, if_false]
    rw [if_neg h]
    simp

theorem foldl_processHeaderStep_get (lines : List GoString) (acc : GoMap × Bool)
    (k : GoString) :
    mapGet (lines.foldl processHeaderStep acc).1 k =
      (specHeaderValue lines k).or (mapGet acc.1 k) := by
  induction lines generalizing acc with
  | nil => simp [specHeaderValue]
  | cons l rest ih =>
    rw [List.foldl_cons, ih, specHeaderValue_cons, processHeaderStep_fst]
    cases specHeaderValue rest k with
    | some v => simp
    | none =>
      by_cases hc : ':' ∈ l
      · by_cases hk : lineKey l = k
        · simp [hc, hk, mapGet_mapSet]
        · simp [hc, hk, mapGet_mapSet]
      · simp [hc]

theorem foldl_processHeaderStep_nodup (lines : List GoString) (acc : GoMap × Bool)
    (h : (mapKeys acc.1).Nodup) : (mapKeys (lines.foldl processHeaderStep acc).1).Nodup := by
  induction lines generalizing acc with
  | nil => simpa using h
  | cons l rest ih =>
    rw [List.foldl_cons]
    apply ih
    rw [processHeaderStep_fst]
    by_cases hc : ':' ∈ l
    · simpa [hc] using mapKeys_mapSet_nodup acc.1 _ _ h
    · simpa [hc] using h

theorem specHeaderValue_isSome (lines : List GoString) (k : GoString) :
    (specHeaderValue lines k).isSome = true ↔ ∃ l ∈ lines, ':' ∈ l ∧ lineKey l = k := by
  induction lines with
  | nil => simp [specHeaderValue]
  | cons l rest ih =>
    rw [specHeaderValue_cons]
    by_cases h : ':' ∈ l ∧ lineKey l = k
    · have : ((specHeaderValue rest k).or (some (TrimSpace (lineValue l)))).isSome = true := by
        cases specHeaderValue rest k <;> simp
      simp only [if_pos h, this, true_iff]
      exact ⟨l, by simp, h⟩
    · simp only [if_neg h, Option.or_none, ih, List.mem_cons]
      constructor
      · rintro ⟨x, hx, hx'⟩
        exact ⟨x, Or.inr hx, hx'⟩
      · rintro ⟨x, hx | hx, hx'⟩
        · subst hx
          exact absurd hx' h
        · exact ⟨x, hx, hx'⟩

theorem startsWithContentType_of_keyIsContentType (l : GoString)
    (h : keyIsContentType l = true) : startsWithContentType l = true := by
  have hkey : ToLower (lineKey l) = "content-type".toList := by
    simpa [keyIsContentType] using h
  have hl : l = lineKey l ++ l.dropWhile (· != ':') :=
    (List.takeWhile_append_dropWhile (· != ':') l).symm
  have hlow : ToLower l = "content-type".toList ++ ToLower (l.dropWhile (· != ':')) := by
    rw [← hkey]
    unfold ToLower
    rw [← List.map_append, ← hl]
  unfold startsWithContentType HasPrefix
  rw [hlow]
  exact List.isPrefixOf_iff_prefix.mpr (List.prefix_append _ _)

/-! ## Response framing: the body and the header mapping -/

/-- C1: for a header block made of one or more non-empty lines joined by single
newlines, at least one of which starts with `content-type` in any case (as every
line whose key is `content-type` does), and for every body `b`, blank lines
included, `processContainerLogs` applied to block, blank line and body succeeds
and returns `b` itself as the body. -/
theorem processContainerLogs_body_exact (lines : List GoString) (b : GoString)
    (hne : lines ≠ []) (hlines : ∀ l ∈ lines, l ≠ [] ∧ '\n' ∉ l)
    (hct : ∃ l ∈ lines, startsWithContentType l = true) :
    processContainerLogs (joinLines lines ++ "\n\n".toList ++ b) =
      some ⟨some b, some ⟨(processHeader (joinLines lines)).1⟩, none⟩ := by
  have hidx := Index_blank_joinLines lines b hne hlines
  have hout : joinLines lines ++ "\n\n".toList ++ b = joinLines lines ++ '\n' :: '\n' :: b := by
    simp
  have hsplit : SplitN (joinLines lines ++ "\n\n".toList ++ b) "\n\n".toList 2 =
      [joinLines lines, b] := by
    rw [hout]
    show SplitN _ ('\n' :: ['\n']) 2 = _
    rw [SplitN_two_of_Index_some hidx]
    simp
  have hhas : (processHeader (joinLines lines)).2 = true := by
    rw [processHeader_snd, Split_joinLines lines hne (fun l hl => (hlines l hl).2)]
    exact List.any_eq_true.mpr hct
  rw [processContainerLogs_of_split hsplit]
  simp [hhas]

/-- C1, at the first stdout text of `TestProcessContainerLogs` with a body that
holds a blank line. -/
theorem processContainerLogs_body_exact_witness :
    processContainerLogs
        (joinLines ["Content-Type: text/html".toList, "Content-Length: 149".toList] ++
          "\n\n".toList ++ "<html>\n\n</html>".toList) =
      some ⟨some "<html>\n\n</html>".toList,
        some ⟨(processHeader
          (joinLines ["Content-Type: text/html".toList, "Content-Length: 149".toList])).1⟩,
        none⟩ :=
  processContainerLogs_body_exact
    ["Content-Type: text/html".toList, "Content-Length: 149".toList]
    "<html>\n\n</html>".toList (by decide) (by decide) (by decide)

/-- C2: when `processContainerLogs` succeeds, the returned header mapping has
pairwise distinct keys, its keys are exactly the keys (text before the first
colon, case kept) of the header-block lines that contain a colon, and the value
under a key is the text after the first colon of the last line carrying that key,
trimmed of surrounding white space; lines without a colon add nothing. -/
theorem processContainerLogs_header_mapping (out : GoString) (ret : Ret)
    (hrun : processContainerLogs out = some ret) (hok : ret.err = none) :
    ∃ hdrs, ret.headers = some hdrs ∧
      (mapKeys hdrs.Header).Nodup ∧
      (∀ k, k ∈ mapKeys hdrs.Header ↔ ∃ l ∈ headerLines out, ':' ∈ l ∧ lineKey l = k) ∧
      (∀ k, mapGet hdrs.Header k = specHeaderValue (headerLines out) k) := by
  obtain ⟨rest, hsplit⟩ := SplitN_two_eq_headerBlock out
  rw [processContainerLogs_of_split hsplit] at hrun
  have hget : ∀ k, mapGet (processHeader (headerBlock out)).1 k =
      specHeaderValue (headerLines out) k := by
    intro k
    have := foldl_processHeaderStep_get (Split (headerBlock out) "\n".toList) ([], false) k
    simpa [processHeader, headerLines, mapGet] using this
  by_cases hct : (processHeader (headerBlock out)).2 = false
  · rw [if_pos hct] at hrun
    have := Option.some.inj hrun
    subst this
    simp at hok
  · rw [if_neg hct] at hrun
    cases rest with
    | nil => simp at hrun
    | cons second tail =>
      have := Option.some.inj hrun
      subst this
      refine ⟨⟨(processHeader (headerBlock out)).1⟩, rfl, ?_, ?_, hget⟩
      · exact foldl_processHeaderStep_nodup _ ([], false) (by simp [mapKeys])
      · intro k
        rw [mem_mapKeys_iff, hget, specHeaderValue_isSome]

/-- C2, at a stdout text with a repeated key and a value that holds colons. -/
theorem processContainerLogs_header_mapping_witness :
    processContainerLogs stdoutRepeatedKey = some retRepeatedKey ∧
    ∃ hdrs, retRepeatedKey.headers = some hdrs ∧
      (mapKeys hdrs.Header).Nodup ∧
      (∀ k, k ∈ mapKeys hdrs.Header ↔
        ∃ l ∈ headerLines stdoutRepeatedKey, ':' ∈ l ∧ lineKey l = k) ∧
      (∀ k, mapGet hdrs.Header k = specHeaderValue (headerLines stdoutRepeatedKey) k) :=
  ⟨by decide,
    processContainerLogs_header_mapping stdoutRepeatedKey retRepeatedKey (by decide) rfl⟩

/-- C3 as stated fails: the only header line of this stdout text has the key
`Content-Typed`, which is not `content-type` in any case, yet framing succeeds. -/
theorem processContainerLogs_key_counterexample :
    (∀ l ∈ headerLines "Content-Typed: x\n\nbody".toList, keyIsContentType l = false) ∧
    processContainerLogs "Content-Typed: x\n\nbody".toList =
      some ⟨some "body".toList, some ⟨[("Content-Typed".toList, "x".toList)]⟩, none⟩ := by
  decide

/-- C3, amended: when no line of the header block starts with `content-type`
(ignoring case), `processContainerLogs` fails with the error "does not contain
content type in logs" and returns no body and no headers, whatever follows the
header block; and every successful framing comes from a header block with a line
that starts with `content-type` (ignoring case). -/
theorem processContainerLogs_missing_content_type (out : GoString) :
    ((∀ l ∈ headerLines out, startsWithContentType l = false) →
      processContainerLogs out =
        some ⟨none, none, some (.plain "does not contain content type in logs".toList)⟩) ∧
    (∀ ret, processContainerLogs out = some ret → ret.err = none →
      ∃ l ∈ headerLines out, startsWithContentType l = true) := by
  obtain ⟨rest, hsplit⟩ := SplitN_two_eq_headerBlock out
  rw [processContainerLogs_of_split hsplit]
  have hsnd := processHeader_snd (headerBlock out)
  constructor
  · intro h
    have hfalse : (processHeader (headerBlock out)).2 = false := by
      rw [hsnd]
      exact List.any_eq_false.mpr (fun l hl => by simp [h l hl])
    rw [if_pos hfalse]
  · intro ret hrun hok
    by_cases hct : (processHeader (headerBlock out)).2 = false
    · rw [if_pos hct] at hrun
      have := Option.some.inj hrun
      subst this
      simp at hok
    · have htrue : (processHeader (headerBlock out)).2 = true := by
        simpa using hct
      rw [hsnd] at htrue
      exact List.any_eq_true.mp htrue

/-- C3 amended, at a stdout text with a body but no content-type line, and at a
framed text. -/
theorem processContainerLogs_missing_content_type_witness :
    processContainerLogs "Content-Length: 4\n\nbody".toList =
        some ⟨none, none, some (.plain "does not contain content type in logs".toList)⟩ ∧
    ∃ l ∈ headerLines "content-type: a\n\nb".toList, startsWithContentType l = true :=
  ⟨(processContainerLogs_missing_content_type "Content-Length: 4\n\nbody".toList).1
      (by decide),
    (processContainerLogs_missing_content_type "content-type: a\n\nb".toList).2
      ⟨some "b".toList, some ⟨[("content-type".toList, "a".toList)]⟩, none⟩ (by decide) rfl⟩

/-! ## The execution pipeline -/

theorem runImage_of_reachesDemux {σ : Type} (cl : ClientInterface σ) (config : Config)
    (s0 : σ) (id : GoString) (out : LogStream) (s5 : σ)
    (h : ReachesDemux cl config s0 id out s5) :
    (runImage cl config s0).ret =
      (match out.copyErr with
        | some err =>
          some ⟨none, none,
            some (errorfWrap "cannot read logs from the container: ".toList err)⟩
        | none =>
          if out.stderr.length > 0 then some ⟨none, none, some .ContainerRunError⟩
          else processContainerLogs out.stdout) ∧
    (runImage cl config s0).calls =
      [.ContainerCreate config, .ContainerStart id, .ContainerWait id, .ContainerLogs id,
        .ContainerRemove id] ∧
    (runImage cl config s0).state = s5 := by
  obtain ⟨s1, s2, w, s3, s4, hcreate, hstart, hwait, hw, hlogs, hremove⟩ := h
  unfold runImage
  simp only [hcreate, hstart, hwait]
  cases w with
  | statusCh =>
    simp only [hlogs, hremove]
    cases out.copyErr with
    | some err => simp
    | none => by_cases hs : out.stderr.length > 0 <;> simp [hs]
  | errCh e =>
    cases e with
    | some err => exact absurd rfl (hw err)
    | none =>
      simp only [hlogs, hremove]
      cases out.copyErr with
      | some err => simp
      | none => by_cases hs : out.stderr.length > 0 <;> simp [hs]

theorem RunContainer_of_pull_ok {σ : Type} (cl : ClientInterface σ) (image : GoString)
    (params : List GoString) (s0 s1 : σ) (hpull : cl.ImagePull s0 image = (none, s1)) :
    Service.RunContainer cl image params s0 =
      ⟨(runImage cl ⟨image, params, [], false⟩ s1).ret,
        .ImagePull image :: (runImage cl ⟨image, params, [], false⟩ s1).calls,
        (runImage cl ⟨image, params, [], false⟩ s1).state⟩ := by
  unfold Service.RunContainer
  simp only [hpull]

theorem RunContainerPost_of_pull_ok {σ : Type} (cl : ClientInterface σ) (image : GoString)
    (reqBody : List GoString) (s0 s1 : σ) (hpull : cl.ImagePull s0 image = (none, s1)) :
    Service.RunContainerPost cl image reqBody s0 =
      ⟨(runImage cl ⟨image, [], reqBody, false⟩ s1).ret,
        .ImagePull image :: (runImage cl ⟨image, [], reqBody, false⟩ s1).calls,
        (runImage cl ⟨image, [], reqBody, false⟩ s1).state⟩ := by
  unfold Service.RunContainerPost
  simp only [hpull]

/-- C4 fails on the code: after the container `c1` has been created, a failure of
start, of wait or of the logs call makes `RunContainer` return without any
`ContainerRemove` call, while the run in which everything succeeds removes the
container once. -/
theorem RunContainer_leaves_container_on_failure :
    (Service.RunContainer (scripted startFails) "alpine".toList ["json".toList] ()).calls =
        [.ImagePull "alpine".toList, .ContainerCreate alpineConfig,
          .ContainerStart "c1".toList] ∧
    removeCount "c1".toList
      (Service.RunContainer (scripted startFails) "alpine".toList ["json".toList] ()).calls = 0 ∧
    removeCount "c1".toList
      (Service.RunContainer (scripted waitFails) "alpine".toList ["json".toList] ()).calls = 0 ∧
    removeCount "c1".toList
      (Service.RunContainer (scripted logsFail) "alpine".toList ["json".toList] ()).calls = 0 ∧
    removeCount "c1".toList
      (Service.RunContainerPost (scripted startFails) "alpine".toList ["json".toList] ()).calls
        = 0 ∧
    removeCount "c1".toList
      (Service.RunContainer (scripted (allSucceed framedStream)) "alpine".toList
        ["json".toList] ()).calls = 1 := by
  decide

/-- C5: a run of `RunContainer` or `RunContainerPost` that gets as far as
demultiplexing, where `StdCopy` returns without an error and leaves a non-empty
stderr buffer, returns `ContainerRunError` with no body and no headers, whatever
the stdout buffer holds. -/
theorem stderr_nonempty_is_ContainerRunError {σ : Type} (cl : ClientInterface σ)
    (image : GoString) (payload : List GoString) (s0 s1 s6 : σ) (id : GoString)
    (out : LogStream) (hpull : cl.ImagePull s0 image = (none, s1))
    (hcopy : out.copyErr = none) (hstderr : out.stderr ≠ []) :
    (ReachesDemux cl ⟨image, payload, [], false⟩ s1 id out s6 →
      (Service.RunContainer cl image payload s0).ret =
        some ⟨none, none, some .ContainerRunError⟩) ∧
    (ReachesDemux cl ⟨image, [], payload, false⟩ s1 id out s6 →
      (Service.RunContainerPost cl image payload s0).ret =
        some ⟨none, none, some .ContainerRunError⟩) := by
  have hlen : out.stderr.length > 0 := List.length_pos.mpr hstderr
  constructor
  · intro h
    rw [RunContainer_of_pull_ok cl image payload s0 s1 hpull]
    have := (runImage_of_reachesDemux cl _ s1 id out s6 h).1
    simpa [hcopy, hlen] using this
  · intro h
    rw [RunContainerPost_of_pull_ok cl image payload s0 s1 hpull]
    have := (runImage_of_reachesDemux cl _ s1 id out s6 h).1
    simpa [hcopy, hlen] using this

/-- C5, on an engine whose container writes a framed response to stdout and a
warning to stderr. -/
theorem stderr_nonempty_is_ContainerRunError_witness :
    (Service.RunContainer (scripted (allSucceed warningStream)) "alpine".toList
        ["json".toList] ()).ret = some ⟨none, none, some .ContainerRunError⟩ ∧
    (Service.RunContainerPost (scripted (allSucceed warningStream)) "alpine".toList
        ["POST_DATA=1".toList] ()).ret = some ⟨none, none, some .ContainerRunError⟩ :=
  ⟨(stderr_nonempty_is_ContainerRunError (scripted (allSucceed warningStream))
      "alpine".toList ["json".toList] () () () "c1".toList warningStream rfl rfl
      (by decide)).1
      ⟨(), (), .statusCh, (), (), rfl, rfl, rfl, (by intro err h; cases h), rfl, rfl⟩,
    (stderr_nonempty_is_ContainerRunError (scripted (allSucceed warningStream))
      "alpine".toList ["POST_DATA=1".toList] () () () "c1".toList warningStream rfl rfl
      (by decide)).2
      ⟨(), (), .statusCh, (), (), rfl, rfl, rfl, (by intro err h; cases h), rfl, rfl⟩⟩

/-- C6: when `ImagePull` fails with `err`, `RunContainer` and `RunContainerPost`
both return, with no body and no headers, an error that wraps `NotFoundError` and
whose text is "image not found, " followed by the text of `err`; the pull is the
only gateway call they make. -/
theorem pull_failure_is_not_found {σ : Type} (cl : ClientInterface σ) (image : GoString)
    (payload : List GoString) (s0 s1 : σ) (err : GoError)
    (hpull : cl.ImagePull s0 image = (some err, s1)) :
    ∃ e : GoError,
      e.Error = "image not found, ".toList ++ err.Error ∧
      e.Unwrap = some .NotFoundError ∧ errorsIs e .NotFoundError = true ∧
      (Service.RunContainer cl image payload s0).ret = some ⟨none, none, some e⟩ ∧
      (Service.RunContainer cl image payload s0).calls = [.ImagePull image] ∧
      (Service.RunContainerPost cl image payload s0).ret = some ⟨none, none, some e⟩ ∧
      (Service.RunContainerPost cl image payload s0).calls = [.ImagePull image] := by
  refine ⟨.wrap ("image not found, ".toList ++ err.Error) .NotFoundError, rfl, rfl, ?_, ?_, ?_,
    ?_, ?_⟩
  · simp [errorsIs]
  · unfold Service.RunContainer
    simp only [hpull]
    rfl
  · unfold Service.RunContainer
    simp only [hpull]
  · unfold Service.RunContainerPost
    simp only [hpull]
    rfl
  · unfold Service.RunContainerPost
    simp only [hpull]

/-- C6, on an engine whose pull fails with "no such image". -/
theorem pull_failure_is_not_found_witness :
    ∃ e : GoError,
      e.Error = "image not found, ".toList ++ "no such image".toList ∧
      e.Unwrap = some .NotFoundError ∧ errorsIs e .NotFoundError = true ∧
      (Service.RunContainer (scripted pullFails) "alpine".toList ["json".toList] ()).ret =
        some ⟨none, none, some e⟩ ∧
      (Service.RunContainer (scripted pullFails) "alpine".toList ["json".toList] ()).calls =
        [.ImagePull "alpine".toList] ∧
      (Service.RunContainerPost (scripted pullFails) "alpine".toList ["json".toList] ()).ret =
        some ⟨none, none, some e⟩ ∧
      (Service.RunContainerPost (scripted pullFails) "alpine".toList ["json".toList] ()).calls =
        [.ImagePull "alpine".toList] :=
  pull_failure_is_not_found (scripted pullFails) "alpine".toList ["json".toList] () ()
    (.plain "no such image".toList) rfl

/-- C7: when the pull succeeds and `ContainerCreate` fails with `err`, the pipeline
returns, with no body and no headers, an error whose text is "could not create a
new container for image " followed by the image name, " because: " and the text of
`err`; pull and create are the only gateway calls it makes. -/
theorem create_failure_message {σ : Type} (cl : ClientInterface σ) (image : GoString)
    (payload : List GoString) (s0 s1 s2 : σ) (err : GoError)
    (hpull : cl.ImagePull s0 image = (none, s1)) :
    (cl.ContainerCreate s1 ⟨image, payload, [], false⟩ = (.error err, s2) →
      ∃ e : GoError,
        e.Error = "could not create a new container for image ".toList ++ image ++
          " because: ".toList ++ err.Error ∧
        (Service.RunContainer cl image payload s0).ret = some ⟨none, none, some e⟩ ∧
        (Service.RunContainer cl image payload s0).calls =
          [.ImagePull image, .ContainerCreate ⟨image, payload, [], false⟩]) ∧
    (cl.ContainerCreate s1 ⟨image, [], payload, false⟩ = (.error err, s2) →
      ∃ e : GoError,
        e.Error = "could not create a new container for image ".toList ++ image ++
          " because: ".toList ++ err.Error ∧
        (Service.RunContainerPost cl image payload s0).ret = some ⟨none, none, some e⟩ ∧
        (Service.RunContainerPost cl image payload s0).calls =
          [.ImagePull image, .ContainerCreate ⟨image, [], payload, false⟩]) := by
  constructor
  · intro hcreate
    refine ⟨errorfWrap ("could not create a new container for image ".toList ++ image ++
      " because: ".toList) err, rfl, ?_, ?_⟩
    · rw [RunContainer_of_pull_ok cl image payload s0 s1 hpull]
      unfold runImage
      simp only [hcreate]
    · rw [RunContainer_of_pull_ok cl image payload s0 s1 hpull]
      unfold runImage
      simp only [hcreate]
  · intro hcreate
    refine ⟨errorfWrap ("could not create a new container for image ".toList ++ image ++
      " because: ".toList) err, rfl, ?_, ?_⟩
    · rw [RunContainerPost_of_pull_ok cl image payload s0 s1 hpull]
      unfold runImage
      simp only [hcreate]
    · rw [RunContainerPost_of_pull_ok cl image payload s0 s1 hpull]
      unfold runImage
      simp only [hcreate]

/-- C7, at the second case of `TestService_RunContainer`: image `alpine`, create
fails with "/bin/sh executable not found". -/
theorem create_failure_message_witness :
    ∃ e : GoError,
      e.Error = "could not create a new container for image ".toList ++ "alpine".toList ++
        " because: ".toList ++ "/bin/sh executable not found".toList ∧
      (Service.RunContainer (scripted createFails) "alpine".toList ["json".toList] ()).ret =
        some ⟨none, none, some e⟩ ∧
      (Service.RunContainer (scripted createFails) "alpine".toList ["json".toList] ()).calls =
        [.ImagePull "alpine".toList,
          .ContainerCreate ⟨"alpine".toList, ["json".toList], [], false⟩] :=
  (create_failure_message (scripted createFails) "alpine".toList ["json".toList] () () ()
    (.plain "/bin/sh executable not found".toList) rfl).1 rfl

/-! ## The HTTP handlers -/

theorem resolved_of_TagResolves (env : Env) (req : Request) (h : TagResolves env req) :
    ∃ tag, (if req.tag = "latest".toList then
        (getOriginalTag env env.REGISTRY req.image_name).map Prod.fst
      else some req.tag) = some tag := by
  by_cases ht : req.tag = "latest".toList
  · have hne := h ht
    cases hg : getOriginalTag env env.REGISTRY req.image_name with
    | none => exact absurd hg hne
    | some r => exact ⟨r.1, by rw [if_pos ht]; rfl⟩
  · exact ⟨req.tag, by rw [if_neg ht]⟩

theorem firstNCharacter_isSome (env : Env) (data : GoString) (h : 0 ≤ env.CONTENT_LENGTH) :
    ∃ content, firstNCharacter env data = some content := by
  unfold firstNCharacter
  by_cases h1 : ((utf8Bytes data).length : Int) < env.CONTENT_LENGTH
  · exact ⟨_, by rw [if_pos h1]⟩
  · exact ⟨_, by rw [if_neg h1, if_neg (Int.not_lt.mpr h)]⟩

theorem mapSet_of_not_mem (m : GoMap) (k v : GoString) (h : k ∉ mapKeys m) :
    mapSet m k v = m ++ [(k, v)] := by
  induction m with
  | nil => rfl
  | cons e rest ih =>
    obtain ⟨k0, v0⟩ := e
    have h0 : k0 ≠ k := fun e => h (by simp [mapKeys, e])
    have hrest : k ∉ mapKeys rest := fun e => h (by
      simp only [mapKeys, List.map_cons, List.mem_cons]
      exact Or.inr e)
    simp [mapSet, h0, ih hrest]

theorem foldl_mapSet_of_nodup (m pre : GoMap) (h : (mapKeys (pre ++ m)).Nodup) :
    m.foldl (fun acc kv => mapSet acc kv.1 kv.2) pre = pre ++ m := by
  induction m generalizing pre with
  | nil => simp
  | cons e rest ih =>
    have hk : e.1 ∉ mapKeys pre := by
      intro hmem
      have hnd : (mapKeys pre ++ e.1 :: mapKeys rest).Nodup := by
        simpa [mapKeys] using h
      have := (List.nodup_append.mp hnd).2.2
      exact this hmem (by simp)
    rw [List.foldl_cons, mapSet_of_not_mem pre e.1 e.2 hk, ih]
    · simp
    · simpa using h

theorem foldl_Set_headers (m : GoMap) (c : Ctx) :
    m.foldl (fun c kv => c.Set kv.1 kv.2) c =
      { c with headerFields := c.headerFields ++ m } := by
  induction m generalizing c with
  | nil => simp
  | cons e rest ih =>
    rw [List.foldl_cons, ih]
    simp [Ctx.Set]

theorem mapGet_of_mem_nodup (m : GoMap) (k v : GoString) (hnd : (mapKeys m).Nodup)
    (h : (k, v) ∈ m) : mapGet m k = some v := by
  induction m with
  | nil => simp at h
  | cons e rest ih =>
    obtain ⟨k0, v0⟩ := e
    have hcons : k0 ∉ mapKeys rest ∧ (mapKeys rest).Nodup := by
      simpa [mapKeys] using hnd
    rcases List.mem_cons.mp h with h1 | h1
    · cases h1
      simp [mapGet]
    · have hk : k0 ≠ k := by
        intro e
        subst e
        exact hcons.1 (List.mem_map.mpr ⟨(k0, v), h1, rfl⟩)
      simp [mapGet, hk, ih hcons.2 h1]

theorem RunContainerGet_response {σ : Type} (svc : ServiceInterface σ) (env : Env)
    (req : Request) (s0 s2 : σ) (ret : Ret) (hres : TagResolves env req)
    (hsvc : svc.RunContainer (svc.ImageExists s0 (imageRef env req)).2 (imageRef env req)
      (getParams req) = (some ret, s2)) :
    (RunContainerGet svc env req s0).response =
      match ret.err with
      | some err =>
        if err = GoError.NotFoundError then some ((Ctx.new.Status 404).JSON (errorEnvelope err))
        else some ((Ctx.new.Status 500).JSON (errorEnvelope err))
      | none =>
        match ret.headers with
        | none => none
        | some header =>
          (firstNCharacter env (ret.body.getD [])).map (fun _ =>
            header.Header.foldl (fun c kv => c.Set kv.1 kv.2)
              (Ctx.new.Send (ret.body.getD []))) := by
  obtain ⟨tag, htag⟩ := resolved_of_TagResolves env req hres
  obtain ⟨body, headers, err⟩ := ret
  obtain ⟨run, runPost, imageExists⟩ := svc
  unfold imageRef getParams at hsvc
  unfold RunContainerGet
  simp only [htag] at hsvc ⊢
  simp only [hsvc]
  cases err with
  | some e => by_cases he : e = GoError.NotFoundError <;> simp [he]
  | none =>
    cases headers with
    | none => simp
    | some header =>
      cases hf : firstNCharacter env (body.getD []) <;> simp [hf]

theorem RunContainerPost_response {σ : Type} (svc : ServiceInterface σ) (env : Env)
    (req : Request) (s0 s2 : σ) (ret : Ret) (hres : TagResolves env req)
    (hsvc : svc.RunContainerPost (svc.ImageExists s0 (imageRef env req)).2 (imageRef env req)
      (postParams req) = (some ret, s2)) :
    (RunContainerPost svc env req s0).response =
      match ret.err with
      | some err =>
        if err = GoError.NotFoundError then some ((Ctx.new.Status 404).JSON (errorEnvelope err))
        else some ((Ctx.new.Status 500).JSON (errorEnvelope err))
      | none =>
        match ret.headers with
        | none => none
        | some header =>
          (firstNCharacter env (ret.body.getD [])).map (fun _ =>
            header.Header.foldl (fun c kv => c.Set kv.1 kv.2)
              (Ctx.new.Send (ret.body.getD []))) := by
  obtain ⟨tag, htag⟩ := resolved_of_TagResolves env req hres
  obtain ⟨body, headers, err⟩ := ret
  obtain ⟨run, runPost, imageExists⟩ := svc
  unfold imageRef postParams at hsvc
  unfold RunContainerPost
  simp only [htag] at hsvc ⊢
  simp only [hsvc]
  cases err with
  | some e => by_cases he : e = GoError.NotFoundError <;> simp [he]
  | none =>
    cases headers with
    | none => simp
    | some header =>
      cases hf : firstNCharacter env (body.getD []) <;> simp [hf]

theorem sent_response (env : Env) (body : GoString) (hdrs : Headers)
    (hlen : 0 ≤ env.CONTENT_LENGTH) :
    (firstNCharacter env body).map (fun _ =>
        hdrs.Header.foldl (fun c kv => c.Set kv.1 kv.2) (Ctx.new.Send body)) =
      some ⟨200, .raw body, hdrs.Header⟩ := by
  obtain ⟨content, hc⟩ := firstNCharacter_isSome env body hlen
  rw [hc, foldl_Set_headers]
  simp [Ctx.new, Ctx.Send]

/-- C8 fails on the code: with the real service over an engine whose pull fails, for
any cause, the GET handler and the POST handler answer with status 500, not 404,
because the error the service returns wraps `NotFoundError` and is not that value
itself. -/
theorem pull_failure_answers_500 (cause : GoError) :
    (RunContainerGet (NewService (scripted (pullFailsWith cause))) sampleEnv
        getAlpine ()).response =
      some ⟨500,
        .json [("error".toList, .bool true),
          ("msg".toList, .str ("image not found, ".toList ++ cause.Error))],
        [("Content-Type".toList, "application/json".toList)]⟩ ∧
    (RunContainerPost (NewService (scripted (pullFailsWith cause))) sampleEnv
        postAlpine ()).response =
      some ⟨500,
        .json [("error".toList, .bool true),
          ("msg".toList, .str ("image not found, ".toList ++ cause.Error))],
        [("Content-Type".toList, "application/json".toList)]⟩ := by
  have hne : ∀ msg, GoError.wrap msg .NotFoundError ≠ .NotFoundError := by
    intro msg h
    cases h
  constructor
  · rw [RunContainerGet_response (NewService (scripted (pullFailsWith cause)))
      sampleEnv getAlpine () ()
      ⟨none, none, some (.wrap ("image not found, ".toList ++ cause.Error) .NotFoundError)⟩
      (by decide) rfl]
    simp only [if_neg (hne _)]
    rfl
  · rw [RunContainerPost_response (NewService (scripted (pullFailsWith cause)))
      sampleEnv postAlpine () ()
      ⟨none, none, some (.wrap ("image not found, ".toList ++ cause.Error) .NotFoundError)⟩
      (by decide) rfl]
    simp only [if_neg (hne _)]
    rfl

/-- C9: when the service returns a failure `err` other than `NotFoundError`, the
GET handler and the POST handler answer with status 500 and the JSON object made
of exactly `error = true` and `msg = ` the text of `err`. -/
theorem failure_answers_500 {σ : Type} (svc : ServiceInterface σ) (env : Env)
    (req : Request) (s0 s2 : σ) (body : Option GoString) (headers : Option Headers)
    (err : GoError) (hres : TagResolves env req) (hne : err ≠ .NotFoundError) :
    (svc.RunContainer (svc.ImageExists s0 (imageRef env req)).2 (imageRef env req)
        (getParams req) = (some ⟨body, headers, some err⟩, s2) →
      (RunContainerGet svc env req s0).response =
        some ⟨500, .json [("error".toList, .bool true), ("msg".toList, .str err.Error)],
          [("Content-Type".toList, "application/json".toList)]⟩) ∧
    (svc.RunContainerPost (svc.ImageExists s0 (imageRef env req)).2 (imageRef env req)
        (postParams req) = (some ⟨body, headers, some err⟩, s2) →
      (RunContainerPost svc env req s0).response =
        some ⟨500, .json [("error".toList, .bool true), ("msg".toList, .str err.Error)],
          [("Content-Type".toList, "application/json".toList)]⟩) := by
  constructor
  · intro hsvc
    rw [RunContainerGet_response svc env req s0 s2 _ hres hsvc]
    simp only [if_neg hne]
    rfl
  · intro hsvc
    rw [RunContainerPost_response svc env req s0 s2 _ hres hsvc]
    simp only [if_neg hne]
    rfl

/-- C9, at the failing cases of `TestExecImageGET` and `TestExecImagePOST`: the
substitute service returns the error "internal error". -/
theorem failure_answers_500_witness :
    (RunContainerGet (mockService internalErrorRet) sampleEnv getAlpine ()).response =
      some ⟨500,
        .json [("error".toList, .bool true), ("msg".toList, .str "internal error".toList)],
        [("Content-Type".toList, "application/json".toList)]⟩ ∧
    (RunContainerPost (mockService internalErrorRet) sampleEnv postAlpine ()).response =
      some ⟨500,
        .json [("error".toList, .bool true), ("msg".toList, .str "internal error".toList)],
        [("Content-Type".toList, "application/json".toList)]⟩ :=
  ⟨(failure_answers_500 (mockService internalErrorRet) sampleEnv getAlpine () () none
      (some ⟨[]⟩) (.plain "internal error".toList) (by decide) (by decide)).1 rfl,
    (failure_answers_500 (mockService internalErrorRet) sampleEnv postAlpine () () none
      (some ⟨[]⟩) (.plain "internal error".toList) (by decide) (by decide)).2 rfl⟩

/-- C10 as stated fails: with the setting `CONTENT_LENGTH = -1` the service returns
success with a body and a header mapping, and the GET handler and the POST handler
panic in `firstNCharacter` (the slice `data[0:n]` on a negative `n`) instead of
answering; no audit entry is written either. -/
theorem success_negative_preview_counterexample :
    (mockService successRet).RunContainer () (imageRef (envPreview (-1)) getAlpine)
        (getParams getAlpine) = (some successRet, ()) ∧
    (RunContainerGet (mockService successRet) (envPreview (-1)) getAlpine ()).response = none ∧
    (RunContainerGet (mockService successRet) (envPreview (-1)) getAlpine ()).events = [] ∧
    (mockService successRet).RunContainerPost () (imageRef (envPreview (-1)) postAlpine)
        (postParams postAlpine) = (some successRet, ()) ∧
    (RunContainerPost (mockService successRet) (envPreview (-1)) postAlpine ()).response =
      none := by
  decide

/-- C10, amended: when the service returns success with the body `body` and the
header mapping `hdrs`, and the configured `CONTENT_LENGTH` is not negative, the GET
handler and the POST handler answer with status 200 and send the body `body`
unchanged, and the header fields they hand to the response through `Set` are the
entries of `hdrs`, each once, with its key and its value as they are in the
mapping, and no other field.  Under which names the HTTP library then writes these
fields, and the `Content-Length` it writes, is the library's matter. -/
theorem success_answers_200 {σ : Type} (svc : ServiceInterface σ) (env : Env)
    (req : Request) (s0 s2 : σ) (body : GoString) (hdrs : Headers)
    (hres : TagResolves env req) (hlen : 0 ≤ env.CONTENT_LENGTH) :
    (svc.RunContainer (svc.ImageExists s0 (imageRef env req)).2 (imageRef env req)
        (getParams req) = (some ⟨some body, some hdrs, none⟩, s2) →
      ∃ c, (RunContainerGet svc env req s0).response = some c ∧
        c.status = 200 ∧ c.body = .raw body ∧ c.headerFields = hdrs.Header) ∧
    (svc.RunContainerPost (svc.ImageExists s0 (imageRef env req)).2 (imageRef env req)
        (postParams req) = (some ⟨some body, some hdrs, none⟩, s2) →
      ∃ c, (RunContainerPost svc env req s0).response = some c ∧
        c.status = 200 ∧ c.body = .raw body ∧ c.headerFields = hdrs.Header) := by
  have hsent := sent_response env body hdrs hlen
  constructor
  · intro hsvc
    refine ⟨⟨200, .raw body, hdrs.Header⟩, ?_, rfl, rfl, rfl⟩
    rw [RunContainerGet_response svc env req s0 s2 _ hres hsvc]
    exact hsent
  · intro hsvc
    refine ⟨⟨200, .raw body, hdrs.Header⟩, ?_, rfl, rfl, rfl⟩
    rw [RunContainerPost_response svc env req s0 s2 _ hres hsvc]
    exact hsent

/-- C10 amended, with a substitute service that returns a body and two headers, one
of them with a name in lower case. -/
theorem success_answers_200_witness :
    (∃ c, (RunContainerGet (mockService successRet) sampleEnv getAlpine ()).response = some c ∧
        c.status = 200 ∧ c.body = .raw "content of response".toList ∧
        c.headerFields = [("Content-Type".toList, "text/html".toList),
          ("x-request-id".toList, "7".toList)]) ∧
    (∃ c, (RunContainerPost (mockService successRet) sampleEnv postAlpine ()).response = some c ∧
        c.status = 200 ∧ c.body = .raw "content of response".toList ∧
        c.headerFields = [("Content-Type".toList, "text/html".toList),
          ("x-request-id".toList, "7".toList)]) :=
  ⟨(success_answers_200 (mockService successRet) sampleEnv getAlpine () ()
      "content of response".toList
      ⟨[("Content-Type".toList, "text/html".toList), ("x-request-id".toList, "7".toList)]⟩
      (by decide) (by decide)).1 rfl,
    (success_answers_200 (mockService successRet) sampleEnv postAlpine () ()
      "content of response".toList
      ⟨[("Content-Type".toList, "text/html".toList), ("x-request-id".toList, "7".toList)]⟩
      (by decide) (by decide)).2 rfl⟩

/-! ## The alias `latest`, the audit entry and the preview -/

theorem RunContainerGet_calls {σ : Type} (svc : ServiceInterface σ) (env : Env)
    (req : Request) (s0 : σ) (hres : TagResolves env req) :
    (RunContainerGet svc env req s0).calls =
      [.ImageExists (imageRef env req), .RunContainer (imageRef env req) (getParams req)] := by
  obtain ⟨tag, htag⟩ := resolved_of_TagResolves env req hres
  obtain ⟨run, runPost, imageExists⟩ := svc
  unfold RunContainerGet imageRef getParams
  simp only [htag]
  split
  · rfl
  · split <;> rfl
  · split
    · rfl
    · split <;> rfl

theorem RunContainerPost_calls {σ : Type} (svc : ServiceInterface σ) (env : Env)
    (req : Request) (s0 : σ) (hres : TagResolves env req) :
    (RunContainerPost svc env req s0).calls =
      [.ImageExists (imageRef env req),
        .RunContainerPost (imageRef env req) (postParams req)] := by
  obtain ⟨tag, htag⟩ := resolved_of_TagResolves env req hres
  obtain ⟨run, runPost, imageExists⟩ := svc
  unfold RunContainerPost imageRef postParams
  simp only [htag]
  split
  · rfl
  · split <;> rfl
  · split
    · rfl
    · split <;> rfl

/-- C11 as stated fails: for the POST request of `alpine:latest`, with the published
tags `1.0`, `1.1` and `latest`, the tag resolves to `1.1`, yet the reference handed
to `ImageExists` and to `RunContainerPost` ends in `:latest` and is not the one
built from `1.1`; the GET request behaves the same. -/
theorem latest_alias_counterexample :
    getOriginalTag sampleEnv sampleEnv.REGISTRY "alpine".toList = some ("1.1".toList, none) ∧
    (RunContainerPost (mockService successRet) sampleEnv postAlpine ()).calls =
      [.ImageExists "registry.example.com/alpine:latest".toList,
        .RunContainerPost "registry.example.com/alpine:latest".toList
          ["POST_DATA=x=1".toList]] ∧
    (RunContainerGet (mockService successRet) sampleEnv getAlpineLatest ()).calls =
      [.ImageExists "registry.example.com/alpine:latest".toList,
        .RunContainer "registry.example.com/alpine:latest".toList ["json".toList]] ∧
    "registry.example.com/alpine:latest".toList ≠ "registry.example.com/alpine:1.1".toList := by
  decide

/-- C11, amended: for every GET or POST request whose tag is the alias `latest`
(and whose tag look-up does not panic), the reference handed to the service, both
to `ImageExists` and to `RunContainer` / `RunContainerPost`, is the registry, a
slash, the image name and `:latest`: it is built from the alias itself, and the
resolved tag is not part of it. -/
theorem latest_alias_is_handed_on {σ : Type} (svc : ServiceInterface σ) (env : Env)
    (req : Request) (s0 : σ) (htag : req.tag = "latest".toList)
    (hres : TagResolves env req) :
    (RunContainerGet svc env req s0).calls =
      [.ImageExists (env.REGISTRY ++ "/".toList ++ req.image_name ++ ":latest".toList),
        .RunContainer (env.REGISTRY ++ "/".toList ++ req.image_name ++ ":latest".toList)
          (getParams req)] ∧
    (RunContainerPost svc env req s0).calls =
      [.ImageExists (env.REGISTRY ++ "/".toList ++ req.image_name ++ ":latest".toList),
        .RunContainerPost (env.REGISTRY ++ "/".toList ++ req.image_name ++ ":latest".toList)
          (postParams req)] := by
  have href : imageRef env req =
      env.REGISTRY ++ "/".toList ++ req.image_name ++ ":latest".toList := by
    unfold imageRef
    rw [htag]
    simp
  rw [RunContainerGet_calls svc env req s0 hres, RunContainerPost_calls svc env req s0 hres,
    href]
  exact ⟨rfl, rfl⟩

/-- C11 amended, on the real service over an engine on which everything succeeds,
for the POST request of `alpine:latest`. -/
theorem latest_alias_is_handed_on_witness :
    (RunContainerGet (NewService (scripted (allSucceed framedStream))) sampleEnv postAlpine
        ()).calls =
      [.ImageExists ("registry.example.com".toList ++ "/".toList ++ "alpine".toList ++
          ":latest".toList),
        .RunContainer ("registry.example.com".toList ++ "/".toList ++ "alpine".toList ++
          ":latest".toList) (getParams postAlpine)] ∧
    (RunContainerPost (NewService (scripted (allSucceed framedStream))) sampleEnv postAlpine
        ()).calls =
      [.ImageExists ("registry.example.com".toList ++ "/".toList ++ "alpine".toList ++
          ":latest".toList),
        .RunContainerPost ("registry.example.com".toList ++ "/".toList ++ "alpine".toList ++
          ":latest".toList) (postParams postAlpine)] :=
  latest_alias_is_handed_on (NewService (scripted (allSucceed framedStream))) sampleEnv
    postAlpine () rfl (by decide)

/-- C12 fails on the code: with a maximum of 1 the preview of the one-character body
`é` is the single byte `0xC3`, the first half of its two-byte encoding, where the
first character is the two bytes `0xC3 0xA9`; with a maximum of 2 the preview of
`éa` is `é` alone, where the first two characters are the whole body. -/
theorem firstNCharacter_cuts_bytes :
    firstNCharacter (envPreview 1) "é".toList = some [0xC3] ∧
    utf8Bytes (specPreview 1 "é".toList) = [0xC3, 0xA9] ∧
    firstNCharacter (envPreview 2) "éa".toList = some (utf8Bytes "é".toList) ∧
    specPreview 2 "éa".toList = "éa".toList := by
  decide

/-- C13 fails on the code: when the service fails, whatever the error, the entry the
POST handler writes has an empty `Tag`, for the request of `alpine:3.18` and for
the request of `alpine:latest` (resolved to `1.1`), while the GET handler writes
the tag `3.18` and the POST handler writes the tag on success. -/
theorem post_failure_entry_has_no_tag (err : GoError) :
    (RunContainerPost (mockService ⟨none, none, some err⟩) sampleEnv postAlpineTagged
        ()).events =
      [⟨"alpine".toList, [], 1, ["POST_DATA=x=1".toList], "POST".toList, 2, true, none,
        err.Error, [], []⟩] ∧
    (RunContainerPost (mockService ⟨none, none, some err⟩) sampleEnv postAlpine ()).events =
      [⟨"alpine".toList, [], 1, ["POST_DATA=x=1".toList], "POST".toList, 2, true, none,
        err.Error, [], []⟩] ∧
    (RunContainerGet (mockService ⟨none, none, some err⟩) sampleEnv getAlpine ()).events =
      [⟨"alpine".toList, "3.18".toList, 1, ["json".toList], "GET".toList, 2, true, none,
        err.Error, [], []⟩] ∧
    (RunContainerPost (mockService successRet) sampleEnv postAlpineTagged ()).events.map
        event.Tag = ["3.18".toList] := by
  refine ⟨?_, ?_, ?_, by decide⟩
  · by_cases h : err = GoError.NotFoundError
    · subst h; decide
    · have : (RunContainerPost (mockService ⟨none, none, some err⟩) sampleEnv
          postAlpineTagged ()).events =
          [logRequestAndResponse sampleEnv ⟨"alpine".toList, [], 1,
            ["POST_DATA=x=1".toList], "POST".toList, 0, true, none, [], [], []⟩
            err.Error none] := by
        simp [RunContainerPost, mockService, postAlpineTagged, sampleEnv, h]
      rw [this]; rfl
  · by_cases h : err = GoError.NotFoundError
    · subst h; decide
    · have : (RunContainerPost (mockService ⟨none, none, some err⟩) sampleEnv
          postAlpine ()).events =
          [logRequestAndResponse sampleEnv ⟨"alpine".toList, [], 1,
            ["POST_DATA=x=1".toList], "POST".toList, 0, true, none, [], [], []⟩
            err.Error none] := by
        have hres : getOriginalTag sampleEnv "registry.example.com".toList "alpine".toList =
            some ("1.1".toList, none) := by decide
        simp [RunContainerPost, mockService, postAlpine, sampleEnv, h] at hres ⊢
        simp [hres, h]
      rw [this]; rfl
  · by_cases h : err = GoError.NotFoundError
    · subst h; decide
    · have : (RunContainerGet (mockService ⟨none, none, some err⟩) sampleEnv
          getAlpine ()).events =
          [logRequestAndResponse sampleEnv ⟨"alpine".toList, "3.18".toList, 1,
            ["json".toList], "GET".toList, 0, true, none, [], [], []⟩
            err.Error none] := by
        simp [RunContainerGet, mockService, getAlpine, sampleEnv, h]
      rw [this]; rfl

/-! ## The successful run and the missing separator -/

/-- C16 fails on the code: on a stdout text with a content-type line and no blank
line `processContainerLogs` panics on the index of the second split part; in
general it panics exactly when the text has no `"\n\n"` and one of its lines
starts with `content-type`, ignoring case. -/
theorem processContainerLogs_panics_without_separator :
    processContainerLogs "Content-Type: text/html".toList = none ∧
    ∀ out, processContainerLogs out = none ↔
      (Index out "\n\n".toList = none ∧ ∃ l ∈ headerLines out, startsWithContentType l = true) := by
  refine ⟨by decide, ?_⟩
  intro out
  have hany : (processHeader (headerBlock out)).2 = true ↔
      ∃ l ∈ headerLines out, startsWithContentType l = true := by
    rw [processHeader_snd]
    exact List.any_eq_true
  cases hidx : Index out ('\n' :: ['\n']) with
  | none =>
    have hidx' : Index out "\n\n".toList = none := hidx
    have hb : headerBlock out = out := by
      unfold headerBlock
      rw [hidx']
    rw [processContainerLogs_of_split (SplitN_two_of_Index_none hidx'), ← hany, hb]
    cases (processHeader out).2 <;> simp [hidx]
  | some m =>
    have hidx' : Index out "\n\n".toList = some m := hidx
    have hsplit : SplitN out "\n\n".toList 2 = [out.take m, out.drop (m + 2)] :=
      SplitN_two_of_Index_some hidx
    rw [processContainerLogs_of_split hsplit]
    cases (processHeader (List.take m out)).2 <;> simp [hidx]

/-! ## The tag selection of `getOriginalTag` -/

theorem char_eq_of_toNat_eq {a b : Char} (h : a.toNat = b.toNat) : a = b := by
  rw [← Char.ofNat_toNat a, ← Char.ofNat_toNat b, h]

theorem strLe_cons_cons (a b : Char) (as bs : GoString) :
    strLe (a :: as) (b :: bs) = (decide (a.toNat < b.toNat) || (a == b && strLe as bs)) := rfl

theorem StrLe_refl (a : GoString) : StrLe a a := by
  unfold StrLe
  induction a with
  | nil => rfl
  | cons x xs ih => simp [strLe_cons_cons, ih]

theorem StrLe_total (a b : GoString) : StrLe a b ∨ StrLe b a := by
  unfold StrLe
  induction a generalizing b with
  | nil => exact Or.inl rfl
  | cons x xs ih =>
    cases b with
    | nil => exact Or.inr rfl
    | cons y ys =>
      rcases Nat.lt_trichotomy x.toNat y.toNat with h | h | h
      · exact Or.inl (by simp [strLe_cons_cons, h])
      · have hxy := char_eq_of_toNat_eq h
        subst hxy
        rcases ih ys with h1 | h1
        · exact Or.inl (by simp [strLe_cons_cons, h1])
        · exact Or.inr (by simp [strLe_cons_cons, h1])
      · exact Or.inr (by simp [strLe_cons_cons, h])

theorem StrLe_trans {a b c : GoString} (hab : StrLe a b) (hbc : StrLe b c) : StrLe a c := by
  unfold StrLe at *
  induction a generalizing b c with
  | nil => rfl
  | cons x xs ih =>
    cases b with
    | nil => simp [strLe] at hab
    | cons y ys =>
      cases c with
      | nil => simp [strLe] at hbc
      | cons z zs =>
        simp only [strLe_cons_cons, Bool.or_eq_true, decide_eq_true_eq, Bool.and_eq_true,
          beq_iff_eq] at hab hbc ⊢
        rcases hab with h1 | ⟨h1, h1'⟩
        · rcases hbc with h2 | ⟨h2, _⟩
          · exact Or.inl (Nat.lt_trans h1 h2)
          · subst h2
            exact Or.inl h1
        · subst h1
          rcases hbc with h2 | ⟨h2, h2'⟩
          · exact Or.inl h2
          · exact Or.inr ⟨h2, ih h1' h2'⟩

theorem StrLe_antisymm {a b : GoString} (hab : StrLe a b) (hba : StrLe b a) : a = b := by
  unfold StrLe at *
  induction a generalizing b with
  | nil =>
    cases b with
    | nil => rfl
    | cons y ys => simp [strLe] at hba
  | cons x xs ih =>
    cases b with
    | nil => simp [strLe] at hab
    | cons y ys =>
      simp only [strLe_cons_cons, Bool.or_eq_true, decide_eq_true_eq, Bool.and_eq_true,
        beq_iff_eq] at hab hba
      rcases hab with h1 | ⟨h1, h1'⟩
      · rcases hba with h2 | ⟨h2, _⟩
        · exact absurd h1 (Nat.lt_asymm h2)
        · subst h2
          exact absurd h1 (Nat.lt_irrefl _)
      · subst h1
        rcases hba with h2 | ⟨_, h2'⟩
        · exact absurd h2 (Nat.lt_irrefl _)
        · rw [ih h1' h2']

theorem sortStrings_eq_insertionSort (tags : List GoString) :
    sortStrings tags = List.insertionSort StrLe tags := by
  have hins : ∀ (x : GoString) (l : List GoString),
      insertSorted x l = List.orderedInsert StrLe x l := by
    intro x l
    induction l with
    | nil => rfl
    | cons y ys ih =>
      by_cases h : strLe x y = true
      · have h' : StrLe x y := h
        simp [insertSorted, List.orderedInsert, h, h']
      · have h' : ¬ StrLe x y := h
        simp [insertSorted, List.orderedInsert, h, h', ih]
  unfold sortStrings
  induction tags with
  | nil => rfl
  | cons t rest ih => rw [List.foldr_cons, ih, hins, List.insertionSort]

theorem sortStrings_perm (tags : List GoString) : List.Perm (sortStrings tags) tags := by
  rw [sortStrings_eq_insertionSort]
  exact List.perm_insertionSort StrLe tags

theorem sortStrings_sorted (tags : List GoString) : List.Pairwise StrLe (sortStrings tags) := by
  rw [sortStrings_eq_insertionSort]
  exact @List.sorted_insertionSort _ StrLe _ ⟨StrLe_total⟩ ⟨fun _ _ _ => StrLe_trans⟩ tags

theorem exists_last_two (l : List GoString) (h : 2 ≤ l.length) :
    ∃ init t top, l = init ++ [t, top] ∧ l.getD (l.length - 2) [] = t := by
  rcases List.eq_nil_or_concat l with h0 | ⟨l1, top, h1⟩
  · subst h0
    simp at h
  · subst h1
    rcases List.eq_nil_or_concat l1 with h0 | ⟨init, t, h2⟩
    · subst h0
      simp at h
    · subst h2
      refine ⟨init, t, top, by simp, ?_⟩
      have hlen : ((init.concat t).concat top).length - 2 = init.length := by simp
      rw [hlen, List.getD_eq_getElem?_getD]
      have e : (init.concat t).concat top = init ++ [t, top] := by simp
      have : ((init.concat t).concat top)[init.length]? = some t := by
        rw [e, List.getElem?_append_right (Nat.le_refl _)]
        simp
      rw [this]
      rfl

/-- C15 as stated fails: the list `b`, `a`, `b` has two distinct tags, its
second-highest tag is `a`, and `getOriginalTag` returns `b`, its highest tag. -/
theorem getOriginalTag_repeated_top_counterexample :
    (∃ a ∈ tagsRepeatedTop, ∃ b ∈ tagsRepeatedTop, a ≠ b) ∧
    getOriginalTag (envTags tagsRepeatedTop) sampleEnv.REGISTRY "alpine".toList =
      some ("b".toList, none) ∧
    IsSecondHighest tagsRepeatedTop "a".toList ∧
    ¬ IsSecondHighest tagsRepeatedTop "b".toList := by
  decide

theorem countP_eq_one_of_nodup (tags : List GoString) (top : GoString) (hnd : tags.Nodup)
    (htop : top ∈ tags) : tags.countP (fun x => decide (x = top)) = 1 := by
  induction tags with
  | nil => simp at htop
  | cons y ys ih =>
    obtain ⟨hy, hys⟩ := List.nodup_cons.mp hnd
    by_cases h : y = top
    · subst h
      have hzero : List.countP (fun x => decide (x = y)) ys = 0 := by
        rw [List.countP_eq_zero]
        intro x hx
        have : x ≠ y := fun e => hy (e ▸ hx)
        simp [this]
      simp [List.countP_cons, hzero]
    · have hmem : top ∈ ys := by
        rcases List.mem_cons.mp htop with h1 | h1
        · exact absurd h1.symm h
        · exact h1
      simp [List.countP_cons, h, ih hys hmem]

/-- C15, amended: for every published tag list of at least two tags whose highest
tag occurs in it once (as in every list of pairwise distinct tags), in any order,
`getOriginalTag` returns without an error the second-highest tag in the
lexicographic order of `sort.Strings`. -/
theorem getOriginalTag_second_highest (env : Env) (repository imageName : GoString)
    (tags : List GoString)
    (hlist : env.tagsList (tagsURL repository imageName) = .ok tags)
    (hlen : 2 ≤ tags.length)
    (honce : ∀ top ∈ tags, (∀ x ∈ tags, StrLe x top) →
      tags.countP (fun x => decide (x = top)) = 1) :
    ∃ t, getOriginalTag env repository imageName = some (t, none) ∧
      IsSecondHighest tags t := by
  have hperm := sortStrings_perm tags
  have hsorted := sortStrings_sorted tags
  have hlen' : 2 ≤ (sortStrings tags).length := by rw [hperm.length_eq]; exact hlen
  obtain ⟨init, t, top, hs, hget⟩ := exists_last_two (sortStrings tags) hlen'
  have hrun : getOriginalTag env repository imageName = some (t, none) := by
    unfold getOriginalTag
    unfold tagsURL at hlist
    simp only [hlist]
    rw [if_neg (by omega), hget]
  rw [hs] at hsorted hperm
  obtain ⟨_, hlast, hcross⟩ := List.pairwise_append.mp hsorted
  have htt : StrLe t top := by
    have := List.pairwise_cons.mp hlast
    exact this.1 top (by simp)
  have hmem : ∀ x, x ∈ tags ↔ x ∈ init ∨ x = t ∨ x = top := by
    intro x
    rw [← hperm.mem_iff]
    simp
  have htop : top ∈ tags := (hmem top).mpr (Or.inr (Or.inr rfl))
  have hmax : ∀ x ∈ tags, StrLe x top := by
    intro x hx
    rcases (hmem x).mp hx with h | h | h
    · exact hcross x h top (by simp)
    · rw [h]; exact htt
    · rw [h]; exact StrLe_refl _
  have hcount : List.countP (fun x => decide (x = top)) (init ++ [t, top]) = 1 :=
    (hperm.countP_eq _).trans (honce top htop hmax)
  have hne : t ≠ top := by
    intro e
    subst e
    simp [List.countP_append, List.countP_cons] at hcount
  refine ⟨t, hrun, top, htop, hmax, (hmem t).mpr (Or.inr (Or.inl rfl)), hne, ?_⟩
  intro x hx hxne
  rcases (hmem x).mp hx with h | h | h
  · exact hcross x h t (by simp)
  · rw [h]; exact StrLe_refl _
  · exact absurd h hxne

/-- C15 amended, on the tags `latest`, `1.0` and `1.1` in this order: the highest is
`latest`, the tag returned is `1.1`. -/
theorem getOriginalTag_second_highest_witness :
    ∃ t, getOriginalTag (envTags tagsUnordered) "registry.example.com".toList
        "alpine".toList = some (t, none) ∧ IsSecondHighest tagsUnordered t :=
  getOriginalTag_second_highest (envTags tagsUnordered) "registry.example.com".toList
    "alpine".toList tagsUnordered rfl (by decide)
    (fun top htop _ => countP_eq_one_of_nodup tagsUnordered top (by decide) htop)

end DockerOperator
